import Mathlib

/-!
Shallow embedding of the BatterySim simulation engine.

The repository contains two variants of the engine, both embedded here:

* the "loader" engine (docs/scripts/pyodide_loader.js, Python source embedded
  in the JS string): 6-component state `[V, I, R, T, soc, sei]`, parameters
  read with `p.get(key, default)`, driver loop `for _ in range(int(t_max/dt))`
  with an early break at `soc >= 0.999`, pre-step sampling;

* the "plot" engine (batterymodel/scripts/plot.js, Python source embedded in
  the JS string): 7-component state `[V, I, R, T, soc, sei, Vc]`, parameters
  read with `p["key"]` (KeyError when absent, modelled with `Except`),
  driver loop `while y[4] < 0.9` with no step or time cap (modelled with an
  explicit fuel argument), post-step sampling.

Python floats are modelled as rationals (exact arithmetic; floating-point
rounding is not modelled).  The transcendental functions `math.exp`,
`math.sin` and the constant `math.pi` are kept abstract as a `RealOps`
parameter threaded through every function; theorems that need properties of
the real exponential state them as explicit hypotheses (e.g. nonnegativity).
Rational division by zero yields `0` in Lean where Python would raise
`ZeroDivisionError`; the one place a claim depends on this (`int(t_max/dt)`
with `dt = 0` in the loader engine) is modelled explicitly with an error.
-/

set_option linter.unusedVariables false
set_option linter.unnecessarySeqFocus false

/-- Abstract interface for the transcendental float operations used by the
Python code (`math.exp`, `math.sin`, `math.pi`). -/
structure RealOps where
  exp : ℚ → ℚ
  sin : ℚ → ℚ
  pi : ℚ

/-- Python `int()` applied to a float: truncation toward zero. -/
def itrunc (q : ℚ) : ℤ :=
  if 0 ≤ q then ⌊q⌋ else -⌊-q⌋

/-- Python float `%`: `a % b = a - b*floor(a/b)` (result has the sign of the
divisor).  Python raises `ZeroDivisionError` for `b = 0`; that case is never
reached by the runs considered here. -/
def pymod (a b : ℚ) : ℚ := a - b * ((⌊a / b⌋ : ℤ) : ℚ)

/-- Python `str.startswith`, on the underlying character lists. -/
def strStarts (s pre : String) : Bool := pre.data.isPrefixOf s.data

/-- The gas constant literal `8.314` appearing in both derivative functions. -/
def Rgas : ℚ := 8314 / 1000

/-- The OCV(SOC) breakpoint table, identical in both engine variants
(descending SOC). -/
def ocvTable : List (ℚ × ℚ) :=
  [(1, 365/100), (995/1000, 345/100), (99/100, 338/100), (90/100, 335/100),
   (80/100, 333/100), (70/100, 330/100), (60/100, 328/100), (50/100, 326/100),
   (40/100, 325/100), (30/100, 323/100), (20/100, 320/100), (15/100, 305/100),
   (95/1000, 300/100), (5/100, 280/100), (5/1000, 254/100), (0, 250/100)]

/-- The bracket scan of `ocv_from_soc`: walk the adjacent pairs of the table
in order, return the linear interpolation for the first bracketing pair, and
the last entry's voltage when no bracket matches. -/
def scanTab : List (ℚ × ℚ) → ℚ → ℚ
  | [], _ => 0
  | [(_, v)], _ => v
  | (sh, vh) :: (sl, vl) :: rest, s =>
      if sl ≤ s ∧ s ≤ sh then vl + (s - sl) / (sh - sl) * (vh - vl)
      else scanTab ((sl, vl) :: rest) s

/-- `ocv_from_soc`, shared by both variants: clamp the input to `[0,1]` and
scan the breakpoint table. -/
def ocv_from_soc (soc : ℚ) : ℚ := scanTab ocvTable (max 0 (min 1 soc))

/-- Ordering invariant of an OCV table: SOC strictly descending and voltage
non-increasing along the list. -/
def tabOrdered : List (ℚ × ℚ) → Prop
  | (s1, v1) :: (s2, v2) :: rest =>
      s2 < s1 ∧ v2 ≤ v1 ∧ tabOrdered ((s2, v2) :: rest)
  | _ => True

/-- Last pair of an OCV table (the `(0, 2.50)` entry for the concrete one). -/
def lastPair : List (ℚ × ℚ) → ℚ × ℚ
  | [] => (0, 0)
  | [p] => p
  | _ :: q :: rest => lastPair (q :: rest)

namespace Loader

/-!
Embedding of the engine in docs/scripts/pyodide_loader.js (the Python code
embedded in the `pythonCode` string).  All parameter values in this variant
are numeric, and every read goes through `p.get(key, default)`, so the
parameter bag is a list of string/rational pairs and every getter is total.
-/

/-- A parameter bag as passed from JS: JSON object with numeric values. -/
abbrev Params : Type := List (String × ℚ)

/-- Python `p.get(key, default)` followed by `float(...)` (values are already
numeric here, so the conversion is the identity; keys of a parsed JSON object
are distinct, so the scan order is immaterial). -/
def pget (p : Params) (k : String) (d : ℚ) : ℚ :=
  match p with
  | [] => d
  | (k2, v) :: rest => if k2 = k then v else pget rest k d

/-- The 6-component state vector `[V, I, R, T, soc, sei]` of this variant. -/
@[ext]
structure Y6 where
  V : ℚ
  I : ℚ
  R : ℚ
  T : ℚ
  soc : ℚ
  sei : ℚ
  deriving DecidableEq

instance : Add Y6 :=
  ⟨fun a b => ⟨a.V + b.V, a.I + b.I, a.R + b.R, a.T + b.T, a.soc + b.soc, a.sei + b.sei⟩⟩

instance : SMul ℚ Y6 :=
  ⟨fun q a => ⟨q * a.V, q * a.I, q * a.R, q * a.T, q * a.soc, q * a.sei⟩⟩

/-- `policy_voltage(policy_name, t, V, R, soc, params)` of the loader engine:
string-prefix dispatch over CV, CC, Pulse, Sine with an open-circuit
fallback. -/
def policy_voltage (ops : RealOps) (name : String) (t V R soc : ℚ) (params : Params) : ℚ :=
  let ocv := ocv_from_soc soc
  if strStarts name "CV" then
    pget params "Vset" (37/10)
  else if strStarts name "CC" then
    pget params "Iset" 25 * R + ocv
  else if strStarts name "Pulse" then
    let Iset := pget params "Iset" 50
    let t_on := pget params "t_on" 2
    let t_off := pget params "t_off" (1/4)
    let cycle := t_on + t_off
    if pymod t cycle < t_on then Iset * R + ocv else ocv
  else if strStarts name "Sine" then
    let Iamp := pget params "Iamp" 60
    let freq := pget params "freq" 4
    let I := |Iamp * ops.sin (2 * ops.pi * freq * t)|
    I * R + ocv
  else ocv

/-- `derivatives(y, t, policy_name, params)` of the loader engine; returns
`(dydt, Vsource, I_inst)`.  The `R > 1e-9` guard makes the current `0` for
tiny or non-positive resistance. -/
def derivatives (ops : RealOps) (pol : String) (params : Params) (y : Y6) (t : ℚ) :
    Y6 × ℚ × ℚ :=
  let m := pget params "mass" 1
  let c := pget params "c" (1/2)
  let k_cool := pget params "k_cool" 3
  let C_nom := pget params "C_nom" 200
  let T_amb := pget params "T_amb" 298
  let k0_sei := pget params "k0" (1/10000000)
  let Ea := pget params "Ea" 30000
  let Vsource := policy_voltage ops pol t y.V y.R y.soc params
  let I_inst := if y.R > 1/1000000000 then (Vsource - y.V) / y.R else 0
  let dSOCdt := I_inst / (C_nom * 3600)
  let dTdt := (I_inst ^ 2 * y.R) / (m * c) + (I_inst * (Vsource - y.V)) / (m * c)
      - k_cool * (y.T - T_amb)
  let soc_clip := max 0 (min 1 y.soc)
  let kT := k0_sei * ops.exp (-Ea / (Rgas * y.T))
  let fQI := (1 + 2 * soc_clip ^ 2) * (1 + (1/10) * |I_inst|)
  let dSEIdt := kT * fQI
  (⟨0, 0, 0, dTdt, dSOCdt, dSEIdt⟩, Vsource, I_inst)

/-- `rk4_step(y, t, dt, policy_name, params)` of the loader engine. -/
def rk4_step (ops : RealOps) (pol : String) (params : Params) (y : Y6) (t dt : ℚ) : Y6 :=
  let k1 := (derivatives ops pol params y t).1
  let k2 := (derivatives ops pol params (y + ((1/2) * dt) • k1) (t + (1/2) * dt)).1
  let k3 := (derivatives ops pol params (y + ((1/2) * dt) • k2) (t + (1/2) * dt)).1
  let k4 := (derivatives ops pol params (y + dt • k3) (t + dt)).1
  y + (dt / 6) • (k1 + (2:ℚ) • k2 + (2:ℚ) • k3 + k4)

/-- The result dictionary of the loader engine: parallel lists keyed
`t, V, I, R, T, SOC, SEI`. -/
structure Traj where
  t : List ℚ
  V : List ℚ
  I : List ℚ
  R : List ℚ
  T : List ℚ
  SOC : List ℚ
  SEI : List ℚ
  deriving DecidableEq

/-- The empty result dictionary created before the loop. -/
def Traj.empty : Traj := ⟨[], [], [], [], [], [], []⟩

/-- One `*.append(...)` block of the loader loop: push time and the six state
components at the end of their lists. -/
def Traj.push (tr : Traj) (time : ℚ) (y : Y6) : Traj :=
  ⟨tr.t ++ [time], tr.V ++ [y.V], tr.I ++ [y.I], tr.R ++ [y.R], tr.T ++ [y.T],
   tr.SOC ++ [y.soc], tr.SEI ++ [y.sei]⟩

/-- The configuration extracted from the parameter bag at the top of
`run_simulation` (one field per `float(p.get(...))` line). -/
structure Cfg where
  soc0 : ℚ
  T0 : ℚ
  t_max : ℚ
  dt : ℚ
  R0 : ℚ
  mass : ℚ
  c : ℚ
  k_cool : ℚ
  C_nom : ℚ
  T_amb : ℚ
  k0 : ℚ
  Ea : ℚ
  Vset : ℚ
  Iset : ℚ
  t_on : ℚ
  t_off : ℚ
  Iamp : ℚ
  freq : ℚ
  deriving DecidableEq

/-- The `float(p.get(...))` block of `run_simulation`, with the documented
defaults. -/
def mkCfg (p : Params) : Cfg :=
  { soc0 := pget p "soc0" 0
    T0 := pget p "T0" 298
    t_max := pget p "t_max" 4000
    dt := pget p "dt" (1/2)
    R0 := pget p "R0" (3/100)
    mass := pget p "mass" 1
    c := pget p "c" (1/2)
    k_cool := pget p "k_cool" 3
    C_nom := pget p "C_nom" 200
    T_amb := pget p "T_amb" 298
    k0 := pget p "k0" (1/10000000)
    Ea := pget p "Ea" 30000
    Vset := pget p "Vset" (37/10)
    Iset := pget p "Iset" 25
    t_on := pget p "t_on" 2
    t_off := pget p "t_off" (1/4)
    Iamp := pget p "Iamp" 60
    freq := pget p "freq" 4 }

/-- The `params = {...}` dictionary rebuilt inside `run_simulation` and passed
to `derivatives`; it always contains these 13 keys. -/
def cfgParams (c : Cfg) : Params :=
  [("mass", c.mass), ("c", c.c), ("k_cool", c.k_cool), ("C_nom", c.C_nom),
   ("T_amb", c.T_amb), ("k0", c.k0), ("Ea", c.Ea), ("Vset", c.Vset),
   ("Iset", c.Iset), ("t_on", c.t_on), ("t_off", c.t_off), ("Iamp", c.Iamp),
   ("freq", c.freq)]

/-- Number of driver-loop iterations: `N = int(t_max / dt)` (clamped at `0`
for a negative quotient, matching `range(N)`). -/
def nsteps (c : Cfg) : ℕ := (itrunc (c.t_max / c.dt)).toNat

/-- The `for _ in range(N)` driver loop of the loader engine: break when
`soc >= 0.999`, otherwise record the pre-step state at the current time,
advance one RK4 step, recompute current at the new state (still at the old
time), overwrite `I` and `V`, and advance the time. -/
def loop (ops : RealOps) (pol : String) (params : Params) (dt : ℚ) :
    ℕ → ℚ → Y6 → Traj → Traj
  | 0, _, _, out => out
  | n + 1, t, y, out =>
      if y.soc ≥ 999/1000 then out
      else
        let out2 := out.push t y
        let y2 := rk4_step ops pol params y t dt
        let d := derivatives ops pol params y2 t
        let y3 : Y6 := { y2 with I := d.2.2, V := ocv_from_soc y2.soc }
        loop ops pol params dt n (t + dt) y3 out2

/-- Body of `run_simulation` once the configuration has been extracted.
`int(t_max / dt)` raises `ZeroDivisionError` in Python when `dt = 0`; that is
the only failure of this variant and is modelled with `Except`. -/
def runWithCfg (ops : RealOps) (pol : String) (c : Cfg) : Except String Traj :=
  if c.dt = 0 then .error "ZeroDivisionError"
  else
    let y0 : Y6 := ⟨ocv_from_soc c.soc0, 0, c.R0, c.T0, c.soc0, 0⟩
    .ok (loop ops pol (cfgParams c) c.dt (nsteps c) 0 y0 Traj.empty)

/-- `run_simulation(policy_name, params_json)` of the loader engine. -/
def run_simulation (ops : RealOps) (pol : String) (p : Params) : Except String Traj :=
  runWithCfg ops pol (mkCfg p)

end Loader

namespace Plot

/-!
Embedding of the engine in batterymodel/scripts/plot.js (the Python code
passed to `pyodide.runPythonAsync`).  Parameters are read with `p["key"]`:
a missing key raises `KeyError`, modelled as `Except.error key`.  The
`sei_model` value is a string, so parameter values are tagged JSON values.
The `while y[4] < 0.9` loop has no step or time cap; it is modelled with an
explicit fuel argument, the boolean in the result recording whether the loop
exited through its own condition (`true`) or the fuel ran out (`false`).
-/

/-- A JSON parameter value: number or string. -/
inductive JVal where
  | num (q : ℚ)
  | str (s : String)
  deriving DecidableEq

/-- Access interface of the parameter dictionary: `g k` is `p["k"]`,
erroring with the key name on a missing key (Python `KeyError`). -/
abbrev Getter : Type := String → Except String JVal

/-- The getter of a concrete JSON object (first binding wins, as in a dict
built from distinct keys). -/
def pv : List (String × JVal) → Getter
  | [], k => .error k
  | (k2, v) :: rest, k => if k2 = k then .ok v else pv rest k

/-- A numeric parameter read: `p["k"]` used in arithmetic.  A string value
would raise a `TypeError` in the surrounding arithmetic; numeric strings are
not modelled (no caller of this engine passes strings for numeric keys). -/
def gnum (g : Getter) (k : String) : Except String ℚ := do
  match (← g k) with
  | .num q => pure q
  | .str _ => .error k

/-- The 7-component state vector `[V, I, R, T, soc, sei, Vc]` of this
variant. -/
@[ext]
structure Y7 where
  V : ℚ
  I : ℚ
  R : ℚ
  T : ℚ
  soc : ℚ
  sei : ℚ
  Vc : ℚ
  deriving DecidableEq

instance : Add Y7 :=
  ⟨fun a b => ⟨a.V + b.V, a.I + b.I, a.R + b.R, a.T + b.T, a.soc + b.soc,
    a.sei + b.sei, a.Vc + b.Vc⟩⟩

instance : SMul ℚ Y7 :=
  ⟨fun q a => ⟨q * a.V, q * a.I, q * a.R, q * a.T, q * a.soc, q * a.sei, q * a.Vc⟩⟩

/-- `policy_voltage(policy, t, y, params)` of the plot engine: exact-match
dispatch over CV, CC, CCCV, CCVPulse with an open-circuit fallback. -/
def policy_voltage (pol : String) (t : ℚ) (y : Y7) (g : Getter) : Except String ℚ :=
  let ocv := ocv_from_soc y.soc
  if pol = "CV" then
    gnum g "Vset"
  else if pol = "CC" then do
    let Iset ← gnum g "Iset"
    pure (Iset * y.R + ocv)
  else if pol = "CCCV" then do
    let Vset ← gnum g "Vset"
    if ocv < Vset then do
      let Iset ← gnum g "Iset"
      pure (Iset * y.R + ocv)
    else
      pure Vset
  else if pol = "CCVPulse" then do
    let ton ← gnum g "ton"
    let toff ← gnum g "toff"
    let cycle := ton + toff
    if pymod t cycle < ton then do
      let Vset ← gnum g "Vset"
      let Iset ← gnum g "Iset"
      pure (min Vset (Iset * y.R + ocv))
    else
      pure ocv
  else
    pure ocv

/-- `derivatives(y, t, policy, params)` of the plot engine; returns
`(dydt, Vsrc, I)`.  There is no guard on `R` here: rational division gives
`0` where Python would raise `ZeroDivisionError` for `R = 0` (no claim
exercises that case). -/
def derivatives (ops : RealOps) (pol : String) (g : Getter) (y : Y7) (t : ℚ) :
    Except String (Y7 × ℚ × ℚ) := do
  let Vsrc ← policy_voltage pol t y g
  let I := (Vsrc - y.V - y.Vc) / y.R
  let C_nom ← gnum g "C_nom"
  let dSOC := I / (C_nom * 3600)
  let mass ← gnum g "mass"
  let c ← gnum g "c"
  let k_cool ← gnum g "k_cool"
  let Tamb ← gnum g "Tamb"
  let dT := (I * I * y.R) / (mass * c) - k_cool * (y.T - Tamb)
  let sm ← g "sei_model"
  let k0 ← gnum g "k0"
  let Ea ← gnum g "Ea"
  let kT := k0 * ops.exp (-Ea / (Rgas * y.T))
  let dSEI ← (match sm with
    | .str s =>
        if s = "full" then do
          let Vset ← gnum g "Vset"
          pure (kT * (ops.exp ((1/2) * (Vset - y.V)) * (1 + (1/10) * |I|)))
        else
          pure (kT * ((1 + 2 * y.soc * y.soc) * (1 + (1/10) * |I|)))
    | .num _ =>
        pure (kT * ((1 + 2 * y.soc * y.soc) * (1 + (1/10) * |I|))))
  let Rtr ← gnum g "Rtr"
  let Ctr ← gnum g "Ctr"
  let dVc := -y.Vc / (Rtr * Ctr) + I / Ctr
  pure (⟨0, 0, 0, dT, dSOC, dSEI, dVc⟩, Vsrc, I)

/-- `rk4(y, t, dt, policy, params)` of the plot engine. -/
def rk4 (ops : RealOps) (pol : String) (g : Getter) (y : Y7) (t dt : ℚ) :
    Except String Y7 := do
  let k1 := (← derivatives ops pol g y t).1
  let k2 := (← derivatives ops pol g (y + ((1/2) * dt) • k1) (t + (1/2) * dt)).1
  let k3 := (← derivatives ops pol g (y + ((1/2) * dt) • k2) (t + (1/2) * dt)).1
  let k4 := (← derivatives ops pol g (y + dt • k3) (t + dt)).1
  pure (y + (dt / 6) • (k1 + (2:ℚ) • k2 + (2:ℚ) • k3 + k4))

/-- The `out` dictionary of the plot engine: parallel lists keyed
`time, voltage, current, temperature, soc, sei, transient` (note: no
resistance list). -/
structure Traj where
  time : List ℚ
  voltage : List ℚ
  current : List ℚ
  temperature : List ℚ
  soc : List ℚ
  sei : List ℚ
  transient : List ℚ
  deriving DecidableEq

/-- The empty `out` dictionary created before the loop. -/
def Traj.empty : Traj := ⟨[], [], [], [], [], [], []⟩

/-- One append block of the plot loop. -/
def Traj.push (tr : Traj) (time : ℚ) (y : Y7) : Traj :=
  ⟨tr.time ++ [time], tr.voltage ++ [y.V], tr.current ++ [y.I],
   tr.temperature ++ [y.T], tr.soc ++ [y.soc], tr.sei ++ [y.sei],
   tr.transient ++ [y.Vc]⟩

/-- The `while y[4] < 0.9` driver loop of the plot engine, with fuel: compute
the pre-step derivatives (for the current overwrite), advance one RK4 step,
overwrite `I` with the pre-step current and `V` with `ocv(new soc)`, append
the post-step state at the pre-step time, and advance the time.  Returns
`(true, out)` when the loop exits through its condition and `(false, out)`
when the fuel runs out with the loop still running. -/
def loop (ops : RealOps) (pol : String) (g : Getter) (dt : ℚ) :
    ℕ → ℚ → Y7 → Traj → Except String (Bool × Traj)
  | 0, _, y, out => if y.soc < 9/10 then .ok (false, out) else .ok (true, out)
  | n + 1, t, y, out =>
      if y.soc < 9/10 then do
        let d ← derivatives ops pol g y t
        let y2 ← rk4 ops pol g y t dt
        let y3 : Y7 := { y2 with I := d.2.2, V := ocv_from_soc y2.soc }
        let out2 := out.push t y3
        loop ops pol g dt n (t + dt) y3 out2
      else .ok (true, out)

/-- `run_simulation(policy, params_json)` of the plot engine, over an
abstract getter. -/
def runG (ops : RealOps) (fuel : ℕ) (pol : String) (g : Getter) :
    Except String (Bool × Traj) := do
  let dt ← gnum g "dt"
  let soc0 ← gnum g "soc0"
  let R0 ← gnum g "R0"
  let T0 ← gnum g "T0"
  let y0 : Y7 := ⟨ocv_from_soc soc0, 0, R0, T0, soc0, 0, 0⟩
  loop ops pol g dt fuel 0 y0 Traj.empty

/-- `run_simulation(policy, params_json)` of the plot engine on a concrete
parameter dictionary. -/
def run_simulation (ops : RealOps) (fuel : ℕ) (pol : String)
    (p : List (String × JVal)) : Except String (Bool × Traj) :=
  runG ops fuel pol (pv p)

end Plot

/-!
Specification-side definitions (written from the spec's words, for the
refinement comparisons) and concrete inputs used by witnesses and
counterexamples.
-/

/-- The RK4 scheme exactly as the specification states it:
`k1=f(y,t); k2=f(y+dt/2*k1,t+dt/2); k3=f(y+dt/2*k2,t+dt/2); k4=f(y+dt*k3,t+dt)`
and `y_next = y + dt/6*(k1+2k2+2k3+k4)`. -/
def specRK4 (f : Loader.Y6 → ℚ → Loader.Y6) (y : Loader.Y6) (t dt : ℚ) : Loader.Y6 :=
  let k1 := f y t
  let k2 := f (y + (dt / 2) • k1) (t + dt / 2)
  let k3 := f (y + (dt / 2) • k2) (t + dt / 2)
  let k4 := f (y + dt • k3) (t + dt)
  y + (dt / 6) • (k1 + (2:ℚ) • k2 + (2:ℚ) • k3 + k4)

/-- The same RK4 scheme as `specRK4`, over a fallible derivative function:
the plot engine's derivative evaluation can fail (KeyError), so its
integrator is the spec's scheme lifted pointwise to `Except`, propagating
the first failure. -/
def specRK4E (f : Plot.Y7 → ℚ → Except String Plot.Y7) (y : Plot.Y7) (t dt : ℚ) :
    Except String Plot.Y7 := do
  let k1 ← f y t
  let k2 ← f (y + (dt / 2) • k1) (t + dt / 2)
  let k3 ← f (y + (dt / 2) • k2) (t + dt / 2)
  let k4 ← f (y + dt • k3) (t + dt)
  pure (y + (dt / 6) • (k1 + (2:ℚ) • k2 + (2:ℚ) • k3 + k4))

/-- The derivative field of the plot engine's `derivatives`: the first
component of the returned triple, as a fallible function of state and time. -/
def Plot.derivField (ops : RealOps) (pol : String) (g : Plot.Getter)
    (y : Plot.Y7) (t : ℚ) : Except String Plot.Y7 := do
  pure (← Plot.derivatives ops pol g y t).1

/-- A concrete instance of the abstract transcendental operations, used to
instantiate witnesses and counterexamples (any nonnegative `exp` works for
them). -/
def ops1 : RealOps := ⟨fun _ => 1, fun _ => 0, 355/113⟩

/-- First element of the current list of a plot-engine result, when the run
succeeded. -/
def Plot.firstCurrent (r : Except String (Bool × Plot.Traj)) : Option ℚ :=
  match r with
  | .ok (_, tr) => tr.current.head?
  | .error _ => none

/-- The plot engine diverges on the given inputs: however much fuel the
`while` loop is given, it neither exits through its `soc < 0.9` condition nor
fails, i.e. the concrete Python loop runs forever. -/
def Plot.diverges (pol : String) (p : List (String × Plot.JVal)) : Prop :=
  ∀ (ops : RealOps) (n : ℕ), ∃ tr, Plot.run_simulation ops n pol p = .ok (false, tr)

/-- A complete plot-engine parameter dictionary with a degenerate pulse
policy (`ton = 0`), under which the commanded voltage is always the
open-circuit voltage and the SOC never moves from `0`. -/
def pPulseStuck : List (String × Plot.JVal) :=
  [("dt", .num (1/2)), ("soc0", .num 0), ("R0", .num (3/100)), ("T0", .num 298),
   ("C_nom", .num 200), ("mass", .num 1), ("c", .num (1/2)), ("k_cool", .num 3),
   ("Tamb", .num 298), ("k0", .num (1/10000000)), ("Ea", .num 30000),
   ("sei_model", .str "simplified"), ("Rtr", .num (1/125)), ("Ctr", .num 5000),
   ("ton", .num 0), ("toff", .num (1/4)), ("Vset", .num (37/10)), ("Iset", .num 25)]

/-- A complete plot-engine parameter dictionary for a CC run. -/
def pCCplot : List (String × Plot.JVal) :=
  [("dt", .num (1/5)), ("soc0", .num 0), ("R0", .num (3/100)), ("T0", .num 298),
   ("C_nom", .num 200), ("mass", .num 1), ("c", .num (1/2)), ("k_cool", .num 3),
   ("Tamb", .num 298), ("k0", .num (1/10000000)), ("Ea", .num 30000),
   ("sei_model", .str "simplified"), ("Rtr", .num (1/125)), ("Ctr", .num 5000),
   ("Iset", .num 25)]

/-- A loader-engine parameter bag with every recognized key explicitly bound
to its documented default value. -/
def defaultsBag : Loader.Params :=
  [("soc0", 0), ("T0", 298), ("t_max", 4000), ("dt", 1/2), ("R0", 3/100),
   ("mass", 1), ("c", 1/2), ("k_cool", 3), ("C_nom", 200), ("T_amb", 298),
   ("k0", 1/10000000), ("Ea", 30000), ("Vset", 37/10), ("Iset", 25),
   ("t_on", 2), ("t_off", 1/4), ("Iamp", 60), ("freq", 4)]

/-- A loader-engine bag with an out-of-domain resistance (`R0 = -1 ≤ 0`) and
a short horizon. -/
def pBadR : Loader.Params := [("R0", -1), ("t_max", 1), ("dt", 1/2)]

/-- A loader-engine bag with a negative SEI rate constant `k0` (accepted by
the engine: parameters are not validated). -/
def pNegK0 : Loader.Params := [("k0", -1), ("R0", -1), ("t_max", 1), ("dt", 1/2)]

/-- A loader-engine bag with a negative time step and horizon, making
`N = int(t_max/dt) = 2` with time samples decreasing. -/
def pNegDt : Loader.Params := [("t_max", -1), ("dt", -1/2), ("R0", -1)]

/-- A small well-behaved loader-engine bag (two loop iterations). -/
def pSmall : Loader.Params := [("t_max", 1), ("dt", 1/2), ("R0", -1)]

/-- Two loader-engine bags that denote the same parameter map (`dt = 1`)
through different association lists. -/
def pDup : Loader.Params := [("dt", 1), ("dt", 2)]

/-- See `pDup`. -/
def pSingle : Loader.Params := [("dt", 1)]

/-- Two plot-engine dictionaries denoting the same map. -/
def pDupP : List (String × Plot.JVal) := [("dt", .num 1), ("dt", .num 2)]

/-- See `pDupP`. -/
def pSingleP : List (String × Plot.JVal) := [("dt", .num 1)]

/-!
Helper lemmas: componentwise arithmetic on the state vectors, and the
projections of the derivative vectors.
-/

@[simp] theorem Y6_add_V (a b : Loader.Y6) : (a + b).V = a.V + b.V := rfl
@[simp] theorem Y6_add_I (a b : Loader.Y6) : (a + b).I = a.I + b.I := rfl
@[simp] theorem Y6_add_R (a b : Loader.Y6) : (a + b).R = a.R + b.R := rfl
@[simp] theorem Y6_add_T (a b : Loader.Y6) : (a + b).T = a.T + b.T := rfl
@[simp] theorem Y6_add_soc (a b : Loader.Y6) : (a + b).soc = a.soc + b.soc := rfl
@[simp] theorem Y6_add_sei (a b : Loader.Y6) : (a + b).sei = a.sei + b.sei := rfl

@[simp] theorem Y6_smul_V (q : ℚ) (a : Loader.Y6) : (q • a).V = q * a.V := rfl
@[simp] theorem Y6_smul_I (q : ℚ) (a : Loader.Y6) : (q • a).I = q * a.I := rfl
@[simp] theorem Y6_smul_R (q : ℚ) (a : Loader.Y6) : (q • a).R = q * a.R := rfl
@[simp] theorem Y6_smul_T (q : ℚ) (a : Loader.Y6) : (q • a).T = q * a.T := rfl
@[simp] theorem Y6_smul_soc (q : ℚ) (a : Loader.Y6) : (q • a).soc = q * a.soc := rfl
@[simp] theorem Y6_smul_sei (q : ℚ) (a : Loader.Y6) : (q • a).sei = q * a.sei := rfl

@[simp] theorem Y7_add_V (a b : Plot.Y7) : (a + b).V = a.V + b.V := rfl
@[simp] theorem Y7_add_I (a b : Plot.Y7) : (a + b).I = a.I + b.I := rfl
@[simp] theorem Y7_add_R (a b : Plot.Y7) : (a + b).R = a.R + b.R := rfl
@[simp] theorem Y7_add_T (a b : Plot.Y7) : (a + b).T = a.T + b.T := rfl
@[simp] theorem Y7_add_soc (a b : Plot.Y7) : (a + b).soc = a.soc + b.soc := rfl
@[simp] theorem Y7_add_sei (a b : Plot.Y7) : (a + b).sei = a.sei + b.sei := rfl
@[simp] theorem Y7_add_Vc (a b : Plot.Y7) : (a + b).Vc = a.Vc + b.Vc := rfl

@[simp] theorem Y7_smul_V (q : ℚ) (a : Plot.Y7) : (q • a).V = q * a.V := rfl
@[simp] theorem Y7_smul_I (q : ℚ) (a : Plot.Y7) : (q • a).I = q * a.I := rfl
@[simp] theorem Y7_smul_R (q : ℚ) (a : Plot.Y7) : (q • a).R = q * a.R := rfl
@[simp] theorem Y7_smul_T (q : ℚ) (a : Plot.Y7) : (q • a).T = q * a.T := rfl
@[simp] theorem Y7_smul_soc (q : ℚ) (a : Plot.Y7) : (q • a).soc = q * a.soc := rfl
@[simp] theorem Y7_smul_sei (q : ℚ) (a : Plot.Y7) : (q • a).sei = q * a.sei := rfl
@[simp] theorem Y7_smul_Vc (q : ℚ) (a : Plot.Y7) : (q • a).Vc = q * a.Vc := rfl

@[simp] theorem loader_dV (ops : RealOps) (pol : String) (params : Loader.Params)
    (y : Loader.Y6) (t : ℚ) : (Loader.derivatives ops pol params y t).1.V = 0 := rfl

@[simp] theorem loader_dI (ops : RealOps) (pol : String) (params : Loader.Params)
    (y : Loader.Y6) (t : ℚ) : (Loader.derivatives ops pol params y t).1.I = 0 := rfl

@[simp] theorem loader_dR (ops : RealOps) (pol : String) (params : Loader.Params)
    (y : Loader.Y6) (t : ℚ) : (Loader.derivatives ops pol params y t).1.R = 0 := rfl

/-- The loader integrator is exactly the fixed-step explicit RK4 scheme
stated in the spec, applied to the derivative field of `derivatives`, and it
carries the algebraic components `V`, `I`, `R` through unchanged (their
derivatives are identically zero). -/
theorem loader_rk4_spec (ops : RealOps) (pol : String) (params : Loader.Params)
    (y : Loader.Y6) (t dt : ℚ) :
    Loader.rk4_step ops pol params y t dt =
      specRK4 (fun z τ => (Loader.derivatives ops pol params z τ).1) y t dt ∧
    (Loader.rk4_step ops pol params y t dt).V = y.V ∧
    (Loader.rk4_step ops pol params y t dt).I = y.I ∧
    (Loader.rk4_step ops pol params y t dt).R = y.R := by
  have hhalf : ∀ x : ℚ, (1/2) * x = x / 2 := fun x => by ring
  constructor
  · simp only [Loader.rk4_step, specRK4, hhalf]
  · refine ⟨?_, ?_, ?_⟩ <;>
    · simp only [Loader.rk4_step, Y6_add_V, Y6_add_I, Y6_add_R, Y6_smul_V,
        Y6_smul_I, Y6_smul_R, loader_dV, loader_dI, loader_dR]
      ring

/-!
Policy dispatch reduction lemmas: the string dispatch of both selectors,
evaluated on the concrete policy identifiers.
-/

theorem plot_cccv_red (t : ℚ) (y : Plot.Y7) (g : Plot.Getter) :
    Plot.policy_voltage "CCCV" t y g = (do
      let vset ← Plot.gnum g "Vset"
      if ocv_from_soc y.soc < vset then do
        let iset ← Plot.gnum g "Iset"
        pure (iset * y.R + ocv_from_soc y.soc)
      else pure vset) := rfl

theorem loader_cccv_red (ops : RealOps) (t V R soc : ℚ) (params : Loader.Params) :
    Loader.policy_voltage ops "CCCV" t V R soc params =
      Loader.pget params "Iset" 25 * R + ocv_from_soc soc := rfl

/-- C7 (amended): the selector that implements CCCV — the plot engine's —
returns the CC voltage `Iset*R + OCV(soc)` while `OCV(soc) < Vset` and the
set-point `Vset` once `OCV(soc) ≥ Vset`; the loader engine's selector
instead prefix-matches the identifier "CCCV" into its CC branch and returns
`Iset*R + OCV(soc)` unconditionally. -/
theorem claim7_cccv_amended :
    (∀ (t : ℚ) (y : Plot.Y7) (g : Plot.Getter) (vset : ℚ),
      g "Vset" = .ok (.num vset) →
      (vset ≤ ocv_from_soc y.soc → Plot.policy_voltage "CCCV" t y g = .ok vset) ∧
      (∀ iset : ℚ, g "Iset" = .ok (.num iset) → ocv_from_soc y.soc < vset →
        Plot.policy_voltage "CCCV" t y g = .ok (iset * y.R + ocv_from_soc y.soc))) ∧
    (∀ (ops : RealOps) (t V R soc : ℚ) (params : Loader.Params),
      Loader.policy_voltage ops "CCCV" t V R soc params =
        Loader.pget params "Iset" 25 * R + ocv_from_soc soc) := by
  constructor
  · intro t y g vset hv
    constructor
    · intro h
      rw [plot_cccv_red]
      simp only [Plot.gnum, hv, bind, Except.bind, pure, Except.pure]
      rw [if_neg (not_lt.2 h)]
    · intro iset hi h
      rw [plot_cccv_red]
      simp only [Plot.gnum, hv, hi, bind, Except.bind, pure, Except.pure]
      rw [if_pos h]
  · intro ops t V R soc params
    exact loader_cccv_red ops t V R soc params

/-- C7 witness: the plot selector at `soc = 1`, `Vset = 3` is in its CV
phase and returns the set-point. -/
theorem claim7_witness :
    Plot.policy_voltage "CCCV" 0 ⟨365/100, 0, 3/100, 298, 1, 0, 0⟩
      (Plot.pv [("Vset", .num 3), ("Iset", .num 25)]) = .ok 3 :=
  ((claim7_cccv_amended.1 0 ⟨365/100, 0, 3/100, 298, 1, 0, 0⟩
      (Plot.pv [("Vset", .num 3), ("Iset", .num 25)]) 3 rfl).1
    (by norm_num [ocv_from_soc, scanTab, ocvTable]))

/-- C7 counterexample: the claim fails on the loader engine's selector: with
`soc = 1` (so `OCV = 3.65 ≥ Vset = 3`) it does not return the set-point but
the CC voltage `25 * 0.03 + 3.65 = 4.4`. -/
theorem claim7_counterexample :
    (3:ℚ) ≤ ocv_from_soc 1 ∧
    Loader.policy_voltage ops1 "CCCV" 0 (365/100) (3/100) 1 [("Vset", 3), ("Iset", 25)]
      = 22/5 ∧ (22/5 : ℚ) ≠ 3 := by
  refine ⟨by norm_num [ocv_from_soc, scanTab, ocvTable], ?_, by norm_num⟩
  rw [loader_cccv_red,
    show Loader.pget [("Vset", 3), ("Iset", 25)] "Iset" 25 = 25 from rfl]
  norm_num [ocv_from_soc, scanTab, ocvTable]

/-!
Frozen-dynamics lemmas for the loader engine: when the resistance fails the
`R > 1e-9` guard, the instantaneous current is `0`, so SOC (and, when the
temperature starts at ambient, the temperature) never move, whatever the
policy is.
-/

theorem loader_deriv_frozen (ops : RealOps) (pol : String) (params : Loader.Params)
    (y : Loader.Y6) (t : ℚ) (hR : ¬(y.R > 1/1000000000)) :
    Loader.derivatives ops pol params y t =
      (⟨0, 0, 0, -(Loader.pget params "k_cool" 3 * (y.T - Loader.pget params "T_amb" 298)),
        0, Loader.pget params "k0" (1/10000000) *
            ops.exp (-Loader.pget params "Ea" 30000 / (Rgas * y.T)) *
            (1 + 2 * (max 0 (min 1 y.soc)) ^ 2)⟩,
       Loader.policy_voltage ops pol t y.V y.R y.soc params, 0) := by
  simp only [Loader.derivatives]
  rw [if_neg hR]
  norm_num [Prod.ext_iff, Loader.Y6.mk.injEq]

theorem loader_dsoc_frozen (ops : RealOps) (pol : String) (params : Loader.Params)
    (y : Loader.Y6) (t : ℚ) (hR : ¬(y.R > 1/1000000000)) :
    (Loader.derivatives ops pol params y t).1.soc = 0 := by
  rw [loader_deriv_frozen ops pol params y t hR]

theorem loader_dI_frozen (ops : RealOps) (pol : String) (params : Loader.Params)
    (y : Loader.Y6) (t : ℚ) (hR : ¬(y.R > 1/1000000000)) :
    (Loader.derivatives ops pol params y t).2.2 = 0 := by
  rw [loader_deriv_frozen ops pol params y t hR]

theorem loader_dT_frozen (ops : RealOps) (pol : String) (params : Loader.Params)
    (y : Loader.Y6) (t : ℚ) (hR : ¬(y.R > 1/1000000000))
    (hT : y.T = Loader.pget params "T_amb" 298) :
    (Loader.derivatives ops pol params y t).1.T = 0 := by
  rw [loader_deriv_frozen ops pol params y t hR]
  rw [hT]
  ring

theorem loader_dsei_frozen (ops : RealOps) (pol : String) (params : Loader.Params)
    (y : Loader.Y6) (t : ℚ) (hR : ¬(y.R > 1/1000000000)) :
    (Loader.derivatives ops pol params y t).1.sei =
      Loader.pget params "k0" (1/10000000) *
        ops.exp (-Loader.pget params "Ea" 30000 / (Rgas * y.T)) *
        (1 + 2 * (max 0 (min 1 y.soc)) ^ 2) := by
  rw [loader_deriv_frozen ops pol params y t hR]

/-- Under the frozen dynamics, one RK4 step moves nothing but `T` and `sei`,
and when the state temperature equals the ambient parameter it moves nothing
but `sei`, by exactly `dt` times the (state-independent) SEI rate. -/
theorem rk4_step_frozen (ops : RealOps) (pol : String) (params : Loader.Params)
    (y : Loader.Y6) (t dt : ℚ) (hR : ¬(y.R > 1/1000000000)) :
    (Loader.rk4_step ops pol params y t dt).V = y.V ∧
    (Loader.rk4_step ops pol params y t dt).I = y.I ∧
    (Loader.rk4_step ops pol params y t dt).R = y.R ∧
    (Loader.rk4_step ops pol params y t dt).soc = y.soc ∧
    (y.T = Loader.pget params "T_amb" 298 →
      (Loader.rk4_step ops pol params y t dt).T = y.T ∧
      (Loader.rk4_step ops pol params y t dt).sei =
        y.sei + dt * (Loader.pget params "k0" (1/10000000) *
          ops.exp (-Loader.pget params "Ea" 30000 / (Rgas * y.T)) *
          (1 + 2 * (max 0 (min 1 y.soc)) ^ 2))) := by
  simp only [Loader.rk4_step]
  set k1 := (Loader.derivatives ops pol params y t).1 with hk1
  set z2 := y + ((1/2) * dt) • k1 with hz2
  set k2 := (Loader.derivatives ops pol params z2 (t + (1/2) * dt)).1 with hk2
  set z3 := y + ((1/2) * dt) • k2 with hz3
  set k3 := (Loader.derivatives ops pol params z3 (t + (1/2) * dt)).1 with hk3
  set z4 := y + dt • k3 with hz4
  set k4 := (Loader.derivatives ops pol params z4 (t + dt)).1 with hk4
  have k1soc : k1.soc = 0 := by rw [hk1]; exact loader_dsoc_frozen ops pol params y t hR
  have h2R : z2.R = y.R := by rw [hz2, hk1]; simp
  have h2soc : z2.soc = y.soc := by rw [hz2]; simp [k1soc]
  have fz2 : ¬(z2.R > 1/1000000000) := by rw [h2R]; exact hR
  have k2soc : k2.soc = 0 := by
    rw [hk2]; exact loader_dsoc_frozen ops pol params z2 (t + (1/2) * dt) fz2
  have h3R : z3.R = y.R := by rw [hz3, hk2]; simp
  have h3soc : z3.soc = y.soc := by rw [hz3]; simp [k2soc]
  have fz3 : ¬(z3.R > 1/1000000000) := by rw [h3R]; exact hR
  have k3soc : k3.soc = 0 := by
    rw [hk3]; exact loader_dsoc_frozen ops pol params z3 (t + (1/2) * dt) fz3
  have h4R : z4.R = y.R := by rw [hz4, hk3]; simp
  have h4soc : z4.soc = y.soc := by rw [hz4]; simp [k3soc]
  have fz4 : ¬(z4.R > 1/1000000000) := by rw [h4R]; exact hR
  have k4soc : k4.soc = 0 := by
    rw [hk4]; exact loader_dsoc_frozen ops pol params z4 (t + dt) fz4
  refine ⟨by rw [hk1, hk2, hk3, hk4]; simp, by rw [hk1, hk2, hk3, hk4]; simp,
    by rw [hk1, hk2, hk3, hk4]; simp, by simp [k1soc, k2soc, k3soc, k4soc], ?_⟩
  intro hT
  have k1T : k1.T = 0 := by rw [hk1]; exact loader_dT_frozen ops pol params y t hR hT
  have h2T : z2.T = y.T := by rw [hz2]; simp [k1T]
  have k2T : k2.T = 0 := by
    rw [hk2]; exact loader_dT_frozen ops pol params z2 _ fz2 (h2T.trans hT)
  have h3T : z3.T = y.T := by rw [hz3]; simp [k2T]
  have k3T : k3.T = 0 := by
    rw [hk3]; exact loader_dT_frozen ops pol params z3 _ fz3 (h3T.trans hT)
  have h4T : z4.T = y.T := by rw [hz4]; simp [k3T]
  have k4T : k4.T = 0 := by
    rw [hk4]; exact loader_dT_frozen ops pol params z4 _ fz4 (h4T.trans hT)
  have k1sei : k1.sei = Loader.pget params "k0" (1/10000000) *
      ops.exp (-Loader.pget params "Ea" 30000 / (Rgas * y.T)) *
      (1 + 2 * (max 0 (min 1 y.soc)) ^ 2) := by
    rw [hk1]; exact loader_dsei_frozen ops pol params y t hR
  have k2sei : k2.sei = Loader.pget params "k0" (1/10000000) *
      ops.exp (-Loader.pget params "Ea" 30000 / (Rgas * y.T)) *
      (1 + 2 * (max 0 (min 1 y.soc)) ^ 2) := by
    rw [hk2, loader_dsei_frozen ops pol params z2 _ fz2, h2T, h2soc]
  have k3sei : k3.sei = Loader.pget params "k0" (1/10000000) *
      ops.exp (-Loader.pget params "Ea" 30000 / (Rgas * y.T)) *
      (1 + 2 * (max 0 (min 1 y.soc)) ^ 2) := by
    rw [hk3, loader_dsei_frozen ops pol params z3 _ fz3, h3T, h3soc]
  have k4sei : k4.sei = Loader.pget params "k0" (1/10000000) *
      ops.exp (-Loader.pget params "Ea" 30000 / (Rgas * y.T)) *
      (1 + 2 * (max 0 (min 1 y.soc)) ^ 2) := by
    rw [hk4, loader_dsei_frozen ops pol params z4 _ fz4, h4T, h4soc]
  constructor
  · simp [k1T, k2T, k3T, k4T]
  · simp only [Y6_add_sei, Y6_smul_sei]
    rw [k1sei, k2sei, k3sei, k4sei]
    ring

theorem pget_cfg_T_amb (c : Loader.Cfg) :
    Loader.pget (Loader.cfgParams c) "T_amb" 298 = c.T_amb := rfl

theorem pget_cfg_k0 (c : Loader.Cfg) :
    Loader.pget (Loader.cfgParams c) "k0" (1/10000000) = c.k0 := rfl

theorem pget_cfg_Ea (c : Loader.Cfg) :
    Loader.pget (Loader.cfgParams c) "Ea" 30000 = c.Ea := rfl

/-- Under the frozen dynamics with the temperature at ambient, the state
produced by one whole loop body (RK4 step plus the `I` and `V` overwrites) is
explicit: only `sei` moves. -/
theorem loader_y3_frozen (ops : RealOps) (pol : String) (c : Loader.Cfg)
    (y : Loader.Y6) (t dt : ℚ)
    (hR : ¬(y.R > 1/1000000000)) (hT : y.T = c.T_amb) :
    ({ Loader.rk4_step ops pol (Loader.cfgParams c) y t dt with
       I := (Loader.derivatives ops pol (Loader.cfgParams c)
              (Loader.rk4_step ops pol (Loader.cfgParams c) y t dt) t).2.2,
       V := ocv_from_soc (Loader.rk4_step ops pol (Loader.cfgParams c) y t dt).soc }
      : Loader.Y6) =
    ⟨ocv_from_soc y.soc, 0, y.R, y.T, y.soc,
      y.sei + dt * (c.k0 * ops.exp (-c.Ea / (Rgas * y.T)) *
        (1 + 2 * (max 0 (min 1 y.soc)) ^ 2))⟩ := by
  have hT' : y.T = Loader.pget (Loader.cfgParams c) "T_amb" 298 := by
    rw [pget_cfg_T_amb]; exact hT
  obtain ⟨hV, hI, hRr, hsoc, hTs⟩ :=
    rk4_step_frozen ops pol (Loader.cfgParams c) y t dt hR
  obtain ⟨hT2, hsei⟩ := hTs hT'
  have fz : ¬((Loader.rk4_step ops pol (Loader.cfgParams c) y t dt).R
      > 1/1000000000) := by rw [hRr]; exact hR
  have hd := loader_dI_frozen ops pol (Loader.cfgParams c) _ t fz
  ext
  · show ocv_from_soc (Loader.rk4_step ops pol (Loader.cfgParams c) y t dt).soc
      = ocv_from_soc y.soc
    rw [hsoc]
  · exact hd
  · exact hRr
  · exact hT2
  · exact hsoc
  · rw [hsei, pget_cfg_k0, pget_cfg_Ea]

/-- One unfolding of the loader loop under the frozen dynamics. -/
theorem loader_iter_frozen (ops : RealOps) (pol : String) (c : Loader.Cfg)
    (t dt : ℚ) (y : Loader.Y6) (n : ℕ) (out : Loader.Traj)
    (hR : ¬(y.R > 1/1000000000)) (hT : y.T = c.T_amb) (hs : ¬(y.soc ≥ 999/1000)) :
    Loader.loop ops pol (Loader.cfgParams c) dt (n + 1) t y out =
      Loader.loop ops pol (Loader.cfgParams c) dt n (t + dt)
        ⟨ocv_from_soc y.soc, 0, y.R, y.T, y.soc,
          y.sei + dt * (c.k0 * ops.exp (-c.Ea / (Rgas * y.T)) *
            (1 + 2 * (max 0 (min 1 y.soc)) ^ 2))⟩
        (out.push t y) := by
  simp only [Loader.loop]
  rw [if_neg hs, loader_y3_frozen ops pol c y t dt hR hT]

/-- Under the frozen dynamics the loader loop never converges: it runs all
`n` remaining iterations, every appended current sample is `0` and every
appended SOC sample is the initial SOC. -/
theorem loader_loop_frozen (ops : RealOps) (pol : String) (params : Loader.Params)
    (dt R0v soc0v : ℚ) (hR0 : ¬(R0v > 1/1000000000)) (hsoc : soc0v < 999/1000) :
    ∀ (n : ℕ) (t : ℚ) (y : Loader.Y6) (out : Loader.Traj),
      y.R = R0v → y.soc = soc0v → y.I = 0 →
      (Loader.loop ops pol params dt n t y out).I = out.I ++ List.replicate n 0 ∧
      (Loader.loop ops pol params dt n t y out).SOC
        = out.SOC ++ List.replicate n soc0v ∧
      (Loader.loop ops pol params dt n t y out).t.length = out.t.length + n := by
  intro n
  induction n with
  | zero => intro t y out hyR hysoc hyI; simp [Loader.loop]
  | succ n ih =>
    intro t y out hyR hysoc hyI
    have hfz : ¬(y.R > 1/1000000000) := by rw [hyR]; exact hR0
    have hns : ¬(y.soc ≥ 999/1000) := by rw [hysoc]; exact not_le.2 hsoc
    obtain ⟨hV, hI, hRr, hsoc2, _⟩ := rk4_step_frozen ops pol params y t dt hfz
    have fz2 : ¬((Loader.rk4_step ops pol params y t dt).R > 1/1000000000) := by
      rw [hRr]; exact hfz
    have hd := loader_dI_frozen ops pol params _ t fz2
    obtain ⟨ih1, ih2, ih3⟩ := ih (t + dt)
      ({ Loader.rk4_step ops pol params y t dt with
         I := (Loader.derivatives ops pol params
                (Loader.rk4_step ops pol params y t dt) t).2.2,
         V := ocv_from_soc (Loader.rk4_step ops pol params y t dt).soc }
        : Loader.Y6)
      (out.push t y) (by simp [hRr, hyR]) (by simp [hsoc2, hysoc]) (by simp [hd])
    simp only [Loader.loop]
    rw [if_neg hns]
    refine ⟨?_, ?_, ?_⟩
    · rw [ih1]
      simp [Loader.Traj.push, hyI, List.append_assoc, List.replicate_succ]
    · rw [ih2]
      simp [Loader.Traj.push, hysoc, List.append_assoc, List.replicate_succ]
    · rw [ih3]
      simp [Loader.Traj.push]
      omega

/-- Fully explicit two-iteration frozen run of the loader loop. -/
theorem loader_two_step (ops : RealOps) (pol : String) (c : Loader.Cfg)
    (hR : ¬(c.R0 > 1/1000000000)) (hT : c.T0 = c.T_amb) (hs : c.soc0 < 999/1000) :
    Loader.loop ops pol (Loader.cfgParams c) c.dt 2 0
      ⟨ocv_from_soc c.soc0, 0, c.R0, c.T0, c.soc0, 0⟩ Loader.Traj.empty =
    ⟨[0, c.dt], [ocv_from_soc c.soc0, ocv_from_soc c.soc0], [0, 0], [c.R0, c.R0],
     [c.T0, c.T0], [c.soc0, c.soc0],
     [0, c.dt * (c.k0 * ops.exp (-c.Ea / (Rgas * c.T0)) *
        (1 + 2 * (max 0 (min 1 c.soc0)) ^ 2))]⟩ := by
  have hs' : ¬(c.soc0 ≥ 999/1000) := not_le.2 hs
  rw [show (2:ℕ) = 1 + 1 from rfl,
    loader_iter_frozen ops pol c 0 c.dt ⟨ocv_from_soc c.soc0, 0, c.R0, c.T0, c.soc0, 0⟩
      1 Loader.Traj.empty hR hT hs']
  rw [loader_iter_frozen ops pol c (0 + c.dt) c.dt _ 0 _ hR hT hs']
  simp [Loader.loop, Loader.Traj.push, Loader.Traj.empty]

/-- A two-iteration frozen run of the whole loader entry point. -/
theorem loader_run_two (ops : RealOps) (pol : String) (p : Loader.Params)
    (hR : ¬((Loader.mkCfg p).R0 > 1/1000000000))
    (hT : (Loader.mkCfg p).T0 = (Loader.mkCfg p).T_amb)
    (hs : (Loader.mkCfg p).soc0 < 999/1000) (hn : Loader.nsteps (Loader.mkCfg p) = 2) :
    Loader.run_simulation ops pol p =
      .ok ⟨[0, (Loader.mkCfg p).dt],
        [ocv_from_soc (Loader.mkCfg p).soc0, ocv_from_soc (Loader.mkCfg p).soc0],
        [0, 0], [(Loader.mkCfg p).R0, (Loader.mkCfg p).R0],
        [(Loader.mkCfg p).T0, (Loader.mkCfg p).T0],
        [(Loader.mkCfg p).soc0, (Loader.mkCfg p).soc0],
        [0, (Loader.mkCfg p).dt * ((Loader.mkCfg p).k0 *
          ops.exp (-(Loader.mkCfg p).Ea / (Rgas * (Loader.mkCfg p).T0)) *
          (1 + 2 * (max 0 (min 1 (Loader.mkCfg p).soc0)) ^ 2))]⟩ := by
  have hdt : ¬((Loader.mkCfg p).dt = 0) := by
    intro h0
    rw [Loader.nsteps, h0] at hn
    norm_num [itrunc] at hn
  rw [Loader.run_simulation, Loader.runWithCfg, if_neg hdt, hn]
  dsimp only
  rw [loader_two_step ops pol (Loader.mkCfg p) hR hT hs]

/-- C4 (amended): the loader engine performs no domain validation and raises
no InvalidParameter error: with an out-of-domain resistance (any `R0` failing
the `R > 1e-9` guard, in particular any `R0 ≤ 0`) the run still proceeds and
returns its full trajectory of `int(t_max/dt)` samples; the guard merely
forces every recorded current to `0` and every recorded SOC to `soc0`. -/
theorem claim4_no_validation (ops : RealOps) (pol : String) (p : Loader.Params)
    (hR : ¬((Loader.mkCfg p).R0 > 1/1000000000))
    (hs : (Loader.mkCfg p).soc0 < 999/1000)
    (hdt : (Loader.mkCfg p).dt ≠ 0) :
    ∃ tr, Loader.run_simulation ops pol p = .ok tr ∧
      tr.I = List.replicate (Loader.nsteps (Loader.mkCfg p)) 0 ∧
      tr.SOC = List.replicate (Loader.nsteps (Loader.mkCfg p)) (Loader.mkCfg p).soc0 ∧
      tr.t.length = Loader.nsteps (Loader.mkCfg p) := by
  rw [Loader.run_simulation, Loader.runWithCfg, if_neg hdt]
  refine ⟨_, rfl, ?_⟩
  have h := loader_loop_frozen ops pol (Loader.cfgParams (Loader.mkCfg p))
    (Loader.mkCfg p).dt (Loader.mkCfg p).R0 (Loader.mkCfg p).soc0 hR hs
    (Loader.nsteps (Loader.mkCfg p)) 0
    ⟨ocv_from_soc (Loader.mkCfg p).soc0, 0, (Loader.mkCfg p).R0,
      (Loader.mkCfg p).T0, (Loader.mkCfg p).soc0, 0⟩
    Loader.Traj.empty rfl rfl rfl
  simpa [Loader.Traj.empty] using h

/-- C4 witness: `R0 = -1` is accepted; the hypotheses of
`claim4_no_validation` hold for `pBadR` and the run returns 2 samples. -/
theorem claim4_witness :
    ∃ tr, Loader.run_simulation ops1 "CC" pBadR = .ok tr ∧
      tr.I = List.replicate (Loader.nsteps (Loader.mkCfg pBadR)) 0 ∧
      tr.SOC = List.replicate (Loader.nsteps (Loader.mkCfg pBadR))
        (Loader.mkCfg pBadR).soc0 ∧
      tr.t.length = Loader.nsteps (Loader.mkCfg pBadR) :=
  claim4_no_validation ops1 "CC" pBadR
    (by norm_num [show (Loader.mkCfg pBadR).R0 = -1 from rfl])
    (by norm_num [show (Loader.mkCfg pBadR).soc0 = 0 from rfl])
    (by norm_num [show (Loader.mkCfg pBadR).dt = 1/2 from rfl])

/-- C4 counterexample: with the out-of-domain `R0 = -1` the loader engine
does not fail fast with an InvalidParameter error and does produce
trajectory samples: the whole run is explicit. -/
theorem claim4_counterexample :
    (Loader.mkCfg pBadR).R0 = -1 ∧
    Loader.run_simulation ops1 "CC" pBadR =
      .ok ⟨[0, 1/2], [5/2, 5/2], [0, 0], [-1, -1], [298, 298], [0, 0],
        [0, 1/20000000]⟩ := by
  constructor
  · rfl
  · rw [loader_run_two ops1 "CC" pBadR
      (by norm_num [show (Loader.mkCfg pBadR).R0 = -1 from rfl])
      rfl
      (by norm_num [show (Loader.mkCfg pBadR).soc0 = 0 from rfl])
      (by norm_num [Loader.nsteps, itrunc,
          show (Loader.mkCfg pBadR).t_max = 1 from rfl,
          show (Loader.mkCfg pBadR).dt = 1/2 from rfl] <;> rfl)]
    norm_num [show (Loader.mkCfg pBadR).dt = 1/2 from rfl,
      show (Loader.mkCfg pBadR).soc0 = 0 from rfl,
      show (Loader.mkCfg pBadR).R0 = -1 from rfl,
      show (Loader.mkCfg pBadR).T0 = 298 from rfl,
      show (Loader.mkCfg pBadR).k0 = 1/10000000 from rfl,
      show (Loader.mkCfg pBadR).Ea = 30000 from rfl,
      show ∀ x, ops1.exp x = 1 from fun _ => rfl,
      ocv_from_soc, scanTab, ocvTable]

/-- C3 (amended): in the loader engine every missing key falls back to its
documented default: a run with an empty parameter bag equals the run with
every recognized key explicitly bound to its default.  (The plot engine
instead raises a KeyError naming the first missing key — see the
counterexample.) -/
theorem claim3_defaults (ops : RealOps) (pol : String) :
    Loader.run_simulation ops pol [] = Loader.run_simulation ops pol defaultsBag := by
  rw [Loader.run_simulation, Loader.run_simulation,
    show Loader.mkCfg [] = Loader.mkCfg defaultsBag from rfl]

/-- C3 counterexample: the plot engine fails on missing keys instead of
substituting defaults: with an empty parameter dictionary it raises
`KeyError: 'dt'` before the loop starts, whatever the fuel. -/
theorem claim3_counterexample :
    Plot.run_simulation ops1 7 "CV" [] = .error "dt" := rfl

/-- C10: both engines are pure functions of (policy, parameter map): the
embedding is state-free and the result depends on the parameter bag only
through its lookup function, so two invocations with the same policy and the
same key-to-value map (however represented) give identical results. -/
theorem claim10_deterministic :
    (∀ (ops : RealOps) (pol : String) (p1 p2 : Loader.Params),
      (∀ k d, Loader.pget p1 k d = Loader.pget p2 k d) →
      Loader.run_simulation ops pol p1 = Loader.run_simulation ops pol p2) ∧
    (∀ (ops : RealOps) (fuel : ℕ) (pol : String) (p1 p2 : List (String × Plot.JVal)),
      (∀ k, Plot.pv p1 k = Plot.pv p2 k) →
      Plot.run_simulation ops fuel pol p1 = Plot.run_simulation ops fuel pol p2) := by
  constructor
  · intro ops pol p1 p2 h
    rw [Loader.run_simulation, Loader.run_simulation,
      show Loader.mkCfg p1 = Loader.mkCfg p2 by simp only [Loader.mkCfg, h]]
  · intro ops fuel pol p1 p2 h
    rw [Plot.run_simulation, Plot.run_simulation, funext h]

/-- C10 witness: two different association lists denoting the same map give
identical runs in both engines. -/
theorem claim10_witness :
    Loader.run_simulation ops1 "CV" pDup = Loader.run_simulation ops1 "CV" pSingle ∧
    Plot.run_simulation ops1 3 "CV" pDupP = Plot.run_simulation ops1 3 "CV" pSingleP :=
  ⟨claim10_deterministic.1 ops1 "CV" pDup pSingle
      (by
        intro k d
        simp only [pDup, pSingle, Loader.pget]
        by_cases h : ("dt" = k) <;> simp [h]),
   claim10_deterministic.2 ops1 3 "CV" pDupP pSingleP
      (by
        intro k
        simp only [pDupP, pSingleP, Plot.pv]
        by_cases h : ("dt" = k) <;> simp [h])⟩

/-!
Monotonicity of the OCV table scan.
-/

theorem lastPair_le : ∀ (rest : List (ℚ × ℚ)) (sl vl : ℚ),
    tabOrdered ((sl, vl) :: rest) →
    (lastPair ((sl, vl) :: rest)).2 ≤ vl ∧ (lastPair ((sl, vl) :: rest)).1 ≤ sl := by
  intro rest
  induction rest with
  | nil => intro sl vl _; exact ⟨le_refl _, le_refl _⟩
  | cons p rest2 ih =>
    intro sl vl hord
    obtain ⟨s2, v2⟩ := p
    simp only [tabOrdered] at hord
    obtain ⟨hlt, hle, hord2⟩ := hord
    have h2 := ih s2 v2 hord2
    exact ⟨le_trans h2.1 hle, le_trans h2.2 hlt.le⟩

theorem scanTab_bounds : ∀ (rest : List (ℚ × ℚ)) (sh vh s : ℚ),
    tabOrdered ((sh, vh) :: rest) →
    (lastPair ((sh, vh) :: rest)).1 ≤ s → s ≤ sh →
    (lastPair ((sh, vh) :: rest)).2 ≤ scanTab ((sh, vh) :: rest) s ∧
    scanTab ((sh, vh) :: rest) s ≤ vh := by
  intro rest
  induction rest with
  | nil => intro sh vh s _ _ _; simp [scanTab, lastPair]
  | cons p rest2 ih =>
    intro sh vh s hord hlo hhi
    obtain ⟨sl, vl⟩ := p
    simp only [tabOrdered] at hord
    obtain ⟨hlt, hle, hord2⟩ := hord
    have hlast : lastPair ((sh, vh) :: (sl, vl) :: rest2) = lastPair ((sl, vl) :: rest2) :=
      rfl
    rw [hlast] at hlo ⊢
    simp only [scanTab]
    by_cases hc : sl ≤ s ∧ s ≤ sh
    · rw [if_pos hc]
      have hd : 0 < sh - sl := by linarith
      have h0 : 0 ≤ (s - sl) / (sh - sl) := div_nonneg (by linarith [hc.1]) hd.le
      have h1 : (s - sl) / (sh - sl) ≤ 1 := by
        rw [div_le_one hd]; linarith [hc.2]
      have hnn : 0 ≤ (s - sl) / (sh - sl) * (vh - vl) :=
        mul_nonneg h0 (sub_nonneg.2 hle)
      have hub : (s - sl) / (sh - sl) * (vh - vl) ≤ vh - vl :=
        mul_le_of_le_one_left (sub_nonneg.2 hle) h1
      have hlv := (lastPair_le rest2 sl vl hord2).1
      constructor <;> linarith
    · have hslt : s < sl := by
        rcases not_and_or.mp hc with h | h
        · exact not_le.mp h
        · exact absurd hhi h
      rw [if_neg hc]
      have h2 := ih sl vl s hord2 hlo hslt.le
      exact ⟨h2.1, le_trans h2.2 hle⟩

theorem scanTab_mono : ∀ (rest : List (ℚ × ℚ)) (sh vh s1 s2 : ℚ),
    tabOrdered ((sh, vh) :: rest) →
    (lastPair ((sh, vh) :: rest)).1 ≤ s1 → s1 ≤ s2 → s2 ≤ sh →
    scanTab ((sh, vh) :: rest) s1 ≤ scanTab ((sh, vh) :: rest) s2 := by
  intro rest
  induction rest with
  | nil => intro sh vh s1 s2 _ _ _ _; simp [scanTab]
  | cons p rest2 ih =>
    intro sh vh s1 s2 hord hlo h12 hhi
    obtain ⟨sl, vl⟩ := p
    simp only [tabOrdered] at hord
    obtain ⟨hlt, hle, hord2⟩ := hord
    have hlast : lastPair ((sh, vh) :: (sl, vl) :: rest2) = lastPair ((sl, vl) :: rest2) :=
      rfl
    rw [hlast] at hlo
    have hd : 0 < sh - sl := by linarith
    simp only [scanTab]
    by_cases hc1 : sl ≤ s1
    · rw [if_pos ⟨hc1, le_trans h12 hhi⟩, if_pos ⟨le_trans hc1 h12, hhi⟩]
      have hfrac : (s1 - sl) / (sh - sl) ≤ (s2 - sl) / (sh - sl) :=
        (div_le_div_right hd).2 (by linarith)
      have := mul_le_mul_of_nonneg_right hfrac (sub_nonneg.2 hle)
      linarith
    · have hs1lt : s1 < sl := not_le.mp hc1
      by_cases hc2 : sl ≤ s2
      · rw [if_neg (fun h => hc1 h.1), if_pos ⟨hc2, hhi⟩]
        have hb := scanTab_bounds rest2 sl vl s1 hord2 hlo hs1lt.le
        have h0 : 0 ≤ (s2 - sl) / (sh - sl) := div_nonneg (by linarith) hd.le
        have hnn : 0 ≤ (s2 - sl) / (sh - sl) * (vh - vl) :=
          mul_nonneg h0 (sub_nonneg.2 hle)
        linarith [hb.2]
      · have hs2lt : s2 < sl := not_le.mp hc2
        rw [if_neg (fun h => hc1 h.1), if_neg (fun h => hc2 h.1)]
        exact ih sl vl s1 s2 hord2 hlo h12 hs2lt.le

/-- C9: the OCV lookup is monotone, its values at 0 and 1 are the table's
extreme voltages (2.50 V and 3.65 V), and inputs outside `[0,1]` are clamped
to the nearer endpoint. -/
theorem claim9_ocv_monotone :
    (∀ s1 s2 : ℚ, s1 ≤ s2 → ocv_from_soc s1 ≤ ocv_from_soc s2) ∧
    ocv_from_soc 0 = 250/100 ∧ ocv_from_soc 1 = 365/100 ∧
    (∀ s : ℚ, 1 ≤ s → ocv_from_soc s = ocv_from_soc 1) ∧
    (∀ s : ℚ, s ≤ 0 → ocv_from_soc s = ocv_from_soc 0) := by
  have hord : tabOrdered ocvTable := by norm_num [tabOrdered, ocvTable]
  refine ⟨?_, by norm_num [ocv_from_soc, scanTab, ocvTable],
    by norm_num [ocv_from_soc, scanTab, ocvTable], ?_, ?_⟩
  · intro s1 s2 h
    have hc1 : (0:ℚ) ≤ max 0 (min 1 s1) := le_max_left 0 _
    have hc2 : max 0 (min 1 s2) ≤ 1 := max_le (by norm_num) (min_le_left 1 s2)
    have hcm : max 0 (min 1 s1) ≤ max 0 (min 1 s2) :=
      max_le_max (le_refl 0) (min_le_min (le_refl 1) h)
    exact scanTab_mono _ 1 (365/100) (max 0 (min 1 s1)) (max 0 (min 1 s2))
      hord hc1 hcm hc2
  · intro s h
    rw [ocv_from_soc, ocv_from_soc, min_eq_left h, min_self]
  · intro s h
    rw [ocv_from_soc, ocv_from_soc,
      min_eq_right (le_trans h zero_le_one), max_eq_left h,
      min_eq_right zero_le_one, max_self]

/-- C9 witness: monotonicity and clamping at concrete points. -/
theorem claim9_witness :
    ocv_from_soc (1/4) ≤ ocv_from_soc (3/4) ∧ ocv_from_soc 2 = ocv_from_soc 1 :=
  ⟨claim9_ocv_monotone.1 (1/4) (3/4) (by norm_num),
   claim9_ocv_monotone.2.2.2.1 2 (by norm_num)⟩

/-!
Divergence of the plot engine on a degenerate pulse policy.
-/

theorem pymod_nonneg (a b : ℚ) (hb : 0 < b) : 0 ≤ pymod a b := by
  have h := Int.floor_le (a / b)
  have h2 : b * ((⌊a / b⌋ : ℤ) : ℚ) ≤ b * (a / b) := by
    exact mul_le_mul_of_nonneg_left h hb.le
  have hba : b * (a / b) = a := by field_simp
  rw [pymod]
  linarith

theorem plot_ccvpulse_red (t : ℚ) (y : Plot.Y7) (g : Plot.Getter) :
    Plot.policy_voltage "CCVPulse" t y g = (do
      let ton ← Plot.gnum g "ton"
      let toff ← Plot.gnum g "toff"
      if pymod t (ton + toff) < ton then do
        let vset ← Plot.gnum g "Vset"
        let iset ← Plot.gnum g "Iset"
        pure (min vset (iset * y.R + ocv_from_soc y.soc))
      else pure (ocv_from_soc y.soc)) := rfl

/-- With `ton = 0` the pulse is never in its on-window, so the commanded
voltage is always the open-circuit voltage. -/
theorem stuck_policy (t : ℚ) (y : Plot.Y7) :
    Plot.policy_voltage "CCVPulse" t y (Plot.pv pPulseStuck) =
      .ok (ocv_from_soc y.soc) := by
  rw [plot_ccvpulse_red]
  simp only [show Plot.gnum (Plot.pv pPulseStuck) "ton" = .ok 0 from rfl,
    show Plot.gnum (Plot.pv pPulseStuck) "toff" = .ok (1/4) from rfl,
    bind, Except.bind, pure, Except.pure, zero_add]
  rw [if_neg (not_lt.2 (pymod_nonneg t (1/4) (by norm_num)))]

/-- Derivatives of the stuck pulse run: on any state with `V = OCV(soc)` and
`Vc = 0` the instantaneous current is `0`, so the SOC and transient
derivatives vanish (only `T` and `sei` can move). -/
theorem stuck_deriv (ops : RealOps) (y : Plot.Y7) (t : ℚ)
    (hV : y.V = ocv_from_soc y.soc) (hVc : y.Vc = 0) :
    ∃ dT ds, Plot.derivatives ops "CCVPulse" (Plot.pv pPulseStuck) y t =
      .ok (⟨0, 0, 0, dT, 0, ds, 0⟩, ocv_from_soc y.soc, 0) := by
  have hI2 : (ocv_from_soc y.soc - y.V) / y.R = 0 := by
    rw [← hV]
    simp
  refine ⟨-(3 * (y.T - 298)),
    1/10000000 * ops.exp (-30000 / (Rgas * y.T)) * (1 + 2 * y.soc * y.soc), ?_⟩
  simp only [Plot.derivatives, stuck_policy,
    show Plot.gnum (Plot.pv pPulseStuck) "C_nom" = .ok 200 from rfl,
    show Plot.gnum (Plot.pv pPulseStuck) "mass" = .ok 1 from rfl,
    show Plot.gnum (Plot.pv pPulseStuck) "c" = .ok (1/2) from rfl,
    show Plot.gnum (Plot.pv pPulseStuck) "k_cool" = .ok 3 from rfl,
    show Plot.gnum (Plot.pv pPulseStuck) "Tamb" = .ok 298 from rfl,
    show Plot.pv pPulseStuck "sei_model" = .ok (.str "simplified") from rfl,
    show Plot.gnum (Plot.pv pPulseStuck) "k0" = .ok (1/10000000) from rfl,
    show Plot.gnum (Plot.pv pPulseStuck) "Ea" = .ok 30000 from rfl,
    show Plot.gnum (Plot.pv pPulseStuck) "Rtr" = .ok (1/125) from rfl,
    show Plot.gnum (Plot.pv pPulseStuck) "Ctr" = .ok 5000 from rfl,
    bind, Except.bind, pure, Except.pure, hVc]
  rw [if_neg (show ¬("simplified" = "full") from by decide)]
  norm_num [hI2]

/-- The RK4 step of the stuck pulse run succeeds and moves neither `V`, `I`,
`R`, `soc` nor `Vc`. -/
theorem stuck_rk4 (ops : RealOps) (y : Plot.Y7) (t dt : ℚ)
    (hV : y.V = ocv_from_soc y.soc) (hVc : y.Vc = 0) :
    ∃ y2, Plot.rk4 ops "CCVPulse" (Plot.pv pPulseStuck) y t dt = .ok y2 ∧
      y2.V = y.V ∧ y2.I = y.I ∧ y2.R = y.R ∧ y2.soc = y.soc ∧ y2.Vc = 0 := by
  obtain ⟨dT1, ds1, h1⟩ := stuck_deriv ops y t hV hVc
  have hz2V : (y + ((1/2) * dt) • (⟨0, 0, 0, dT1, 0, ds1, 0⟩ : Plot.Y7)).V
      = ocv_from_soc (y + ((1/2) * dt) • (⟨0, 0, 0, dT1, 0, ds1, 0⟩ : Plot.Y7)).soc := by
    simp [hV]
  have hz2Vc : (y + ((1/2) * dt) • (⟨0, 0, 0, dT1, 0, ds1, 0⟩ : Plot.Y7)).Vc = 0 := by
    simp [hVc]
  obtain ⟨dT2, ds2, h2⟩ := stuck_deriv ops _ (t + (1/2) * dt) hz2V hz2Vc
  have hz3V : (y + ((1/2) * dt) • (⟨0, 0, 0, dT2, 0, ds2, 0⟩ : Plot.Y7)).V
      = ocv_from_soc (y + ((1/2) * dt) • (⟨0, 0, 0, dT2, 0, ds2, 0⟩ : Plot.Y7)).soc := by
    simp [hV]
  have hz3Vc : (y + ((1/2) * dt) • (⟨0, 0, 0, dT2, 0, ds2, 0⟩ : Plot.Y7)).Vc = 0 := by
    simp [hVc]
  obtain ⟨dT3, ds3, h3⟩ := stuck_deriv ops _ (t + (1/2) * dt) hz3V hz3Vc
  have hz4V : (y + dt • (⟨0, 0, 0, dT3, 0, ds3, 0⟩ : Plot.Y7)).V
      = ocv_from_soc (y + dt • (⟨0, 0, 0, dT3, 0, ds3, 0⟩ : Plot.Y7)).soc := by
    simp [hV]
  have hz4Vc : (y + dt • (⟨0, 0, 0, dT3, 0, ds3, 0⟩ : Plot.Y7)).Vc = 0 := by
    simp [hVc]
  obtain ⟨dT4, ds4, h4⟩ := stuck_deriv ops _ (t + dt) hz4V hz4Vc
  refine ⟨y + (dt / 6) • ((⟨0, 0, 0, dT1, 0, ds1, 0⟩ : Plot.Y7)
      + (2:ℚ) • (⟨0, 0, 0, dT2, 0, ds2, 0⟩ : Plot.Y7)
      + (2:ℚ) • (⟨0, 0, 0, dT3, 0, ds3, 0⟩ : Plot.Y7)
      + (⟨0, 0, 0, dT4, 0, ds4, 0⟩ : Plot.Y7)), ?_, ?_, ?_, ?_, ?_, ?_⟩
  · simp only [Plot.rk4, h1, h2, h3, h4, bind, Except.bind, pure, Except.pure]
  · simp
  · simp
  · simp
  · simp
  · simp [hVc]

/-- The stuck pulse run of the plot loop never exits through its condition:
whatever the fuel, the loop is still running (SOC is frozen at 0). -/
theorem stuck_loop (ops : RealOps) (dt : ℚ) : ∀ (n : ℕ) (t : ℚ) (y : Plot.Y7)
    (out : Plot.Traj), y.V = ocv_from_soc y.soc → y.Vc = 0 → y.soc = 0 →
    ∃ tr, Plot.loop ops "CCVPulse" (Plot.pv pPulseStuck) dt n t y out
      = .ok (false, tr) := by
  intro n
  induction n with
  | zero =>
    intro t y out hV hVc hsoc
    refine ⟨out, ?_⟩
    simp only [Plot.loop]
    rw [if_pos (by rw [hsoc]; norm_num)]
  | succ n ih =>
    intro t y out hV hVc hsoc
    obtain ⟨dT1, ds1, hd⟩ := stuck_deriv ops y t hV hVc
    obtain ⟨y2, hrk, h2V, h2I, h2R, h2soc, h2Vc⟩ := stuck_rk4 ops y t dt hV hVc
    obtain ⟨tr, htr⟩ := ih (t + dt)
      ({ y2 with I := (0:ℚ), V := ocv_from_soc y2.soc } : Plot.Y7)
      (out.push t ({ y2 with I := (0:ℚ), V := ocv_from_soc y2.soc } : Plot.Y7))
      rfl h2Vc (h2soc.trans hsoc)
    refine ⟨tr, ?_⟩
    simp only [Plot.loop]
    rw [if_pos (by rw [hsoc]; norm_num)]
    simp only [hd, hrk, bind, Except.bind]
    exact htr

/-- Length bound of the loader loop: each remaining iteration appends at
most one sample. -/
theorem loader_loop_len (ops : RealOps) (pol : String) (params : Loader.Params)
    (dt : ℚ) : ∀ (n : ℕ) (t : ℚ) (y : Loader.Y6) (out : Loader.Traj),
    (Loader.loop ops pol params dt n t y out).t.length ≤ out.t.length + n := by
  intro n
  induction n with
  | zero => intro t y out; simp [Loader.loop]
  | succ n ih =>
    intro t y out
    simp only [Loader.loop]
    by_cases hc : y.soc ≥ 999/1000
    · rw [if_pos hc]; omega
    · rw [if_neg hc]
      refine le_trans (ih _ _ _) ?_
      simp [Loader.Traj.push]
      omega

/-- C1 (amended): the loader engine always terminates — the trajectory of a
successful run has at most `int(t_max/dt)` samples (the loop is a bounded
`for` with an early break at `soc ≥ 0.999`), though no `NonConverged` status
is attached on hitting the bound.  The plot engine has no such cap and can
run forever — see the counterexample. -/
theorem claim1_loader_bounded (ops : RealOps) (pol : String) (p : Loader.Params)
    (tr : Loader.Traj) (h : Loader.run_simulation ops pol p = .ok tr) :
    tr.t.length ≤ Loader.nsteps (Loader.mkCfg p) := by
  rw [Loader.run_simulation, Loader.runWithCfg] at h
  by_cases hdt : (Loader.mkCfg p).dt = 0
  · rw [if_pos hdt] at h; cases h
  · rw [if_neg hdt] at h
    dsimp only at h
    cases h
    simpa [Loader.Traj.empty] using
      loader_loop_len ops pol (Loader.cfgParams (Loader.mkCfg p)) (Loader.mkCfg p).dt
        (Loader.nsteps (Loader.mkCfg p)) 0 _ Loader.Traj.empty

/-- C1 witness: a concrete bounded loader run (two samples, bound 2). -/
theorem claim1_witness :
    ∃ tr, Loader.run_simulation ops1 "X" pSmall = .ok tr ∧
      tr.t.length ≤ Loader.nsteps (Loader.mkCfg pSmall) := by
  have h := loader_run_two ops1 "X" pSmall
    (by norm_num [show (Loader.mkCfg pSmall).R0 = -1 from rfl])
    rfl
    (by norm_num [show (Loader.mkCfg pSmall).soc0 = 0 from rfl])
    (by norm_num [Loader.nsteps, itrunc,
        show (Loader.mkCfg pSmall).t_max = 1 from rfl,
        show (Loader.mkCfg pSmall).dt = 1/2 from rfl] <;> rfl)
  exact ⟨_, h, claim1_loader_bounded ops1 "X" pSmall _ h⟩

/-- C1 counterexample: the plot engine's `run_simulation` does not terminate
on a degenerate pulse policy (`ton = 0`) from `soc0 = 0`: with any amount of
fuel the `while soc < 0.9` loop is still running — there is no step or time
cap and no NonConverged result. -/
theorem claim1_counterexample : Plot.diverges "CCVPulse" pPulseStuck := by
  intro ops n
  rw [Plot.run_simulation, Plot.runG]
  simp only [show Plot.gnum (Plot.pv pPulseStuck) "dt" = .ok (1/2) from rfl,
    show Plot.gnum (Plot.pv pPulseStuck) "soc0" = .ok 0 from rfl,
    show Plot.gnum (Plot.pv pPulseStuck) "R0" = .ok (3/100) from rfl,
    show Plot.gnum (Plot.pv pPulseStuck) "T0" = .ok 298 from rfl,
    bind, Except.bind]
  exact stuck_loop ops (1/2) n 0 ⟨ocv_from_soc 0, 0, 3/100, 298, 0, 0, 0⟩
    Plot.Traj.empty rfl rfl rfl

theorem head_append_left (l l2 : List ℚ) (h : l ≠ []) : (l ++ l2).head? = l.head? := by
  cases l with
  | nil => exact absurd rfl h
  | cons a as => rfl

/-- Once the trajectory is nonempty, the loader loop never changes the first
recorded sample. -/
theorem loader_loop_head (ops : RealOps) (pol : String) (params : Loader.Params)
    (dt : ℚ) : ∀ (n : ℕ) (t : ℚ) (y : Loader.Y6) (out : Loader.Traj),
    out.t ≠ [] → out.V ≠ [] → out.I ≠ [] → out.R ≠ [] → out.T ≠ [] →
    out.SOC ≠ [] → out.SEI ≠ [] →
    (Loader.loop ops pol params dt n t y out).t.head? = out.t.head? ∧
    (Loader.loop ops pol params dt n t y out).V.head? = out.V.head? ∧
    (Loader.loop ops pol params dt n t y out).I.head? = out.I.head? ∧
    (Loader.loop ops pol params dt n t y out).R.head? = out.R.head? ∧
    (Loader.loop ops pol params dt n t y out).T.head? = out.T.head? ∧
    (Loader.loop ops pol params dt n t y out).SOC.head? = out.SOC.head? ∧
    (Loader.loop ops pol params dt n t y out).SEI.head? = out.SEI.head? := by
  intro n
  induction n with
  | zero =>
    intro t y out h1 h2 h3 h4 h5 h6 h7
    simp [Loader.loop]
  | succ n ih =>
    intro t y out h1 h2 h3 h4 h5 h6 h7
    simp only [Loader.loop]
    by_cases hc : y.soc ≥ 999/1000
    · rw [if_pos hc]
      exact ⟨rfl, rfl, rfl, rfl, rfl, rfl, rfl⟩
    · rw [if_neg hc]
      have hne : ∀ (l : List ℚ) (x : ℚ), l ++ [x] ≠ [] := by
        intro l x h
        simpa using congrArg List.length h
      obtain ⟨g1, g2, g3, g4, g5, g6, g7⟩ := ih (t + dt) _ (out.push t y)
        (hne _ _) (hne _ _) (hne _ _) (hne _ _) (hne _ _) (hne _ _) (hne _ _)
      refine ⟨?_, ?_, ?_, ?_, ?_, ?_, ?_⟩ <;>
        first
        | exact g1.trans (head_append_left _ _ h1)
        | exact g2.trans (head_append_left _ _ h2)
        | exact g3.trans (head_append_left _ _ h3)
        | exact g4.trans (head_append_left _ _ h4)
        | exact g5.trans (head_append_left _ _ h5)
        | exact g6.trans (head_append_left _ _ h6)
        | exact g7.trans (head_append_left _ _ h7)

/-- C2 (amended): the loader engine records the pre-step state: whenever the
loop runs at least once, the first recorded sample is exactly the initial
state — time `0`, `V = OCV(soc0)`, current `0`, `R0`, `T0`, `soc0`, SEI `0`.
(The plot engine appends the post-step state instead — see the
counterexample.) -/
theorem claim2_prestep (ops : RealOps) (pol : String) (p : Loader.Params)
    (tr : Loader.Traj) (h : Loader.run_simulation ops pol p = .ok tr)
    (hs : (Loader.mkCfg p).soc0 < 999/1000) (hn : 0 < Loader.nsteps (Loader.mkCfg p)) :
    tr.t.head? = some 0 ∧
    tr.V.head? = some (ocv_from_soc (Loader.mkCfg p).soc0) ∧
    tr.I.head? = some 0 ∧
    tr.R.head? = some (Loader.mkCfg p).R0 ∧
    tr.T.head? = some (Loader.mkCfg p).T0 ∧
    tr.SOC.head? = some (Loader.mkCfg p).soc0 ∧
    tr.SEI.head? = some 0 := by
  rw [Loader.run_simulation, Loader.runWithCfg] at h
  by_cases hdt : (Loader.mkCfg p).dt = 0
  · rw [if_pos hdt] at h; cases h
  · rw [if_neg hdt] at h
    dsimp only at h
    cases h
    obtain ⟨m, hm⟩ := Nat.exists_eq_succ_of_ne_zero hn.ne'
    rw [hm]
    simp only [Loader.loop]
    rw [if_neg (show ¬((⟨ocv_from_soc (Loader.mkCfg p).soc0, 0, (Loader.mkCfg p).R0,
        (Loader.mkCfg p).T0, (Loader.mkCfg p).soc0, 0⟩ : Loader.Y6).soc ≥ 999/1000)
      from not_le.2 hs)]
    have hne : ∀ x : ℚ, ([] : List ℚ) ++ [x] ≠ [] := by intro x h; simpa using h
    obtain ⟨g1, g2, g3, g4, g5, g6, g7⟩ := loader_loop_head ops pol
      (Loader.cfgParams (Loader.mkCfg p)) (Loader.mkCfg p).dt m ((0:ℚ) + (Loader.mkCfg p).dt)
      _ (Loader.Traj.empty.push 0
          ⟨ocv_from_soc (Loader.mkCfg p).soc0, 0, (Loader.mkCfg p).R0,
            (Loader.mkCfg p).T0, (Loader.mkCfg p).soc0, 0⟩)
      (hne _) (hne _) (hne _) (hne _) (hne _) (hne _) (hne _)
    exact ⟨g1, g2, g3, g4, g5, g6, g7⟩

/-- C2 witness: a concrete run whose first sample is the initial state. -/
theorem claim2_witness :
    ∃ tr, Loader.run_simulation ops1 "CV" pSmall = .ok tr ∧
      tr.t.head? = some 0 ∧ tr.I.head? = some 0 ∧
      tr.SOC.head? = some (Loader.mkCfg pSmall).soc0 := by
  have h := loader_run_two ops1 "CV" pSmall
    (by norm_num [show (Loader.mkCfg pSmall).R0 = -1 from rfl])
    rfl
    (by norm_num [show (Loader.mkCfg pSmall).soc0 = 0 from rfl])
    (by norm_num [Loader.nsteps, itrunc,
        show (Loader.mkCfg pSmall).t_max = 1 from rfl,
        show (Loader.mkCfg pSmall).dt = 1/2 from rfl] <;> rfl)
  have hp := claim2_prestep ops1 "CV" pSmall _ h
    (by norm_num [show (Loader.mkCfg pSmall).soc0 = 0 from rfl])
    (by norm_num [Loader.nsteps, itrunc,
        show (Loader.mkCfg pSmall).t_max = 1 from rfl,
        show (Loader.mkCfg pSmall).dt = 1/2 from rfl])
  exact ⟨_, h, hp.1, hp.2.2.1, hp.2.2.2.2.2.1⟩

theorem cc_deriv_parts (ops : RealOps) (y : Plot.Y7) (t : ℚ) :
    ∃ k, Plot.derivatives ops "CC" (Plot.pv pCCplot) y t =
      .ok (k, 25 * y.R + ocv_from_soc y.soc,
        (25 * y.R + ocv_from_soc y.soc - y.V - y.Vc) / y.R) := ⟨_, rfl⟩

theorem cc_rk4_ok (ops : RealOps) (y : Plot.Y7) (t dt : ℚ) :
    ∃ y2, Plot.rk4 ops "CC" (Plot.pv pCCplot) y t dt = .ok y2 := by
  obtain ⟨k1, h1⟩ := cc_deriv_parts ops y t
  obtain ⟨k2, h2⟩ := cc_deriv_parts ops (y + ((1/2) * dt) • k1) (t + (1/2) * dt)
  obtain ⟨k3, h3⟩ := cc_deriv_parts ops (y + ((1/2) * dt) • k2) (t + (1/2) * dt)
  obtain ⟨k4, h4⟩ := cc_deriv_parts ops (y + dt • k3) (t + dt)
  refine ⟨y + (dt / 6) • (k1 + (2:ℚ) • k2 + (2:ℚ) • k3 + k4), ?_⟩
  simp only [Plot.rk4, h1, h2, h3, h4, bind, Except.bind, pure, Except.pure]

/-- One iteration of the plot loop under CC, with the appended current made
explicit. -/
theorem cc_loop_one (ops : RealOps) (dt t : ℚ) (y : Plot.Y7) (out : Plot.Traj)
    (hsoc : y.soc < 9/10) :
    ∃ b y3, Plot.loop ops "CC" (Plot.pv pCCplot) dt 1 t y out = .ok (b, out.push t y3) ∧
      y3.I = (25 * y.R + ocv_from_soc y.soc - y.V - y.Vc) / y.R := by
  obtain ⟨k1, hd⟩ := cc_deriv_parts ops y t
  obtain ⟨y2, hrk⟩ := cc_rk4_ok ops y t dt
  refine ⟨(if ({ y2 with
                 I := (25 * y.R + ocv_from_soc y.soc - y.V - y.Vc) / y.R,
                 V := ocv_from_soc y2.soc } : Plot.Y7).soc < 9/10 then false
            else true),
    ({ y2 with
       I := (25 * y.R + ocv_from_soc y.soc - y.V - y.Vc) / y.R,
       V := ocv_from_soc y2.soc } : Plot.Y7), ?_, rfl⟩
  simp only [Plot.loop, hd, hrk, bind, Except.bind]
  rw [if_pos hsoc]
  split <;> rfl

theorem cc_runG_red (ops : RealOps) (fuel : ℕ) :
    Plot.run_simulation ops fuel "CC" pCCplot =
      Plot.loop ops "CC" (Plot.pv pCCplot) (1/5) fuel 0
        ⟨ocv_from_soc 0, 0, 3/100, 298, 0, 0, 0⟩ Plot.Traj.empty := rfl

/-- C2 counterexample: the plot engine does not record the pre-step state:
under CC with `Iset = 25` its very first recorded current sample is `25`,
not the initial current `0` — the sample at time `t` is the post-step state
(with the current from the pre-step derivative evaluation). -/
theorem claim2_counterexample :
    Plot.firstCurrent (Plot.run_simulation ops1 1 "CC" pCCplot) = some 25 ∧
    (25:ℚ) ≠ 0 := by
  refine ⟨?_, by norm_num⟩
  obtain ⟨b, y3, hloop, hI⟩ := cc_loop_one ops1 (1/5) 0
    ⟨ocv_from_soc 0, 0, 3/100, 298, 0, 0, 0⟩ Plot.Traj.empty (by norm_num)
  rw [cc_runG_red ops1 1, hloop]
  simp only [Plot.firstCurrent, Plot.Traj.push, Plot.Traj.empty, hI]
  norm_num

/-!
SEI monotonicity.
-/

theorem loader_dsei_nonneg (ops : RealOps) (pol : String) (params : Loader.Params)
    (y : Loader.Y6) (t : ℚ) (hexp : ∀ x, 0 ≤ ops.exp x)
    (hk0 : 0 ≤ Loader.pget params "k0" (1/10000000)) :
    0 ≤ (Loader.derivatives ops pol params y t).1.sei := by
  simp only [Loader.derivatives]
  refine mul_nonneg (mul_nonneg hk0 (hexp _)) (mul_nonneg ?_ ?_) <;> positivity

theorem loader_rk4_sei_mono (ops : RealOps) (pol : String) (params : Loader.Params)
    (y : Loader.Y6) (t dt : ℚ) (hdt : 0 ≤ dt) (hexp : ∀ x, 0 ≤ ops.exp x)
    (hk0 : 0 ≤ Loader.pget params "k0" (1/10000000)) :
    y.sei ≤ (Loader.rk4_step ops pol params y t dt).sei := by
  simp only [Loader.rk4_step]
  set k1 := (Loader.derivatives ops pol params y t).1 with hk1
  set z2 := y + ((1/2) * dt) • k1 with hz2
  set k2 := (Loader.derivatives ops pol params z2 (t + (1/2) * dt)).1 with hk2
  set z3 := y + ((1/2) * dt) • k2 with hz3
  set k3 := (Loader.derivatives ops pol params z3 (t + (1/2) * dt)).1 with hk3
  set z4 := y + dt • k3 with hz4
  set k4 := (Loader.derivatives ops pol params z4 (t + dt)).1 with hk4
  have h1 : 0 ≤ k1.sei := by
    rw [hk1]; exact loader_dsei_nonneg ops pol params y t hexp hk0
  have h2 : 0 ≤ k2.sei := by
    rw [hk2]; exact loader_dsei_nonneg ops pol params z2 _ hexp hk0
  have h3 : 0 ≤ k3.sei := by
    rw [hk3]; exact loader_dsei_nonneg ops pol params z3 _ hexp hk0
  have h4 : 0 ≤ k4.sei := by
    rw [hk4]; exact loader_dsei_nonneg ops pol params z4 _ hexp hk0
  simp only [Y6_add_sei, Y6_smul_sei]
  have hs : 0 ≤ dt / 6 * (k1.sei + (2 * k2.sei + (2 * k3.sei + k4.sei))) := by
    refine mul_nonneg (by linarith) (by linarith)
  linarith

theorem chain_concat (l : List ℚ) (a b : ℚ) (h : List.Chain' (· ≤ ·) (l ++ [a]))
    (hab : a ≤ b) : List.Chain' (· ≤ ·) ((l ++ [a]) ++ [b]) := by
  rw [List.chain'_append]
  refine ⟨h, List.chain'_singleton b, ?_⟩
  intro x hx z hz
  simp only [List.getLast?_concat, Option.mem_def, Option.some.injEq] at hx
  simp only [List.head?_cons, Option.mem_def, Option.some.injEq] at hz
  subst hx
  subst hz
  exact hab

theorem chain_drop_last (l : List ℚ) (a : ℚ)
    (h : List.Chain' (· ≤ ·) (l ++ [a])) : List.Chain' (· ≤ ·) l :=
  ((List.chain'_append.mp h).1)

/-- The SEI samples of the loader loop grow monotonically when `dt ≥ 0`,
`k0 ≥ 0` and the exponential is nonnegative. -/
theorem loader_loop_sei (ops : RealOps) (pol : String) (params : Loader.Params)
    (dt : ℚ) (hdt : 0 ≤ dt) (hexp : ∀ x, 0 ≤ ops.exp x)
    (hk0 : 0 ≤ Loader.pget params "k0" (1/10000000)) :
    ∀ (n : ℕ) (t : ℚ) (y : Loader.Y6) (out : Loader.Traj),
      List.Chain' (· ≤ ·) (out.SEI ++ [y.sei]) →
      List.Chain' (· ≤ ·) ((Loader.loop ops pol params dt n t y out).SEI) := by
  intro n
  induction n with
  | zero =>
    intro t y out h
    simp only [Loader.loop]
    exact chain_drop_last _ _ h
  | succ n ih =>
    intro t y out h
    simp only [Loader.loop]
    by_cases hc : y.soc ≥ 999/1000
    · rw [if_pos hc]
      exact chain_drop_last _ _ h
    · rw [if_neg hc]
      refine ih _ _ _ ?_
      have hstep : y.sei ≤ (Loader.rk4_step ops pol params y t dt).sei :=
        loader_rk4_sei_mono ops pol params y t dt hdt hexp hk0
      exact chain_concat _ _ _ h hstep

theorem bind_ok {α β : Type} (x : Except String α) (f : α → Except String β) (b : β)
    (h : x >>= f = .ok b) : ∃ a, x = .ok a ∧ f a = .ok b := by
  cases x with
  | error e => simp [bind, Except.bind] at h
  | ok a => exact ⟨a, rfl, by simpa [bind, Except.bind] using h⟩

theorem gnum_ok (g : Plot.Getter) (k : String) (q : ℚ)
    (h : Plot.gnum g k = .ok q) : g k = .ok (.num q) := by
  cases hg : g k with
  | error e => rw [Plot.gnum, hg] at h; simp [bind, Except.bind] at h
  | ok v =>
    cases v with
    | num q2 =>
      rw [Plot.gnum, hg] at h
      simp only [bind, Except.bind, pure, Except.pure, Except.ok.injEq] at h
      rw [h]
    | str s => rw [Plot.gnum, hg] at h; simp [bind, Except.bind] at h

theorem plot_dsei_nn (ops : RealOps) (pol : String) (g : Plot.Getter)
    (y : Plot.Y7) (t : ℚ) (d : Plot.Y7 × ℚ × ℚ)
    (hexp : ∀ x, 0 ≤ ops.exp x)
    (hk0 : ∀ q, g "k0" = .ok (.num q) → 0 ≤ q)
    (h : Plot.derivatives ops pol g y t = .ok d) :
    0 ≤ d.1.sei := by
  rw [Plot.derivatives] at h
  obtain ⟨vsrc, hpv, h⟩ := bind_ok _ _ _ h
  try dsimp only at h
  obtain ⟨cnom, hcn, h⟩ := bind_ok _ _ _ h
  try dsimp only at h
  obtain ⟨m, hm, h⟩ := bind_ok _ _ _ h
  try dsimp only at h
  obtain ⟨c, hcv, h⟩ := bind_ok _ _ _ h
  try dsimp only at h
  obtain ⟨kc, hkc, h⟩ := bind_ok _ _ _ h
  try dsimp only at h
  obtain ⟨tam, hta, h⟩ := bind_ok _ _ _ h
  try dsimp only at h
  obtain ⟨sm, hsm, h⟩ := bind_ok _ _ _ h
  try dsimp only at h
  obtain ⟨k0v, hk0v, h⟩ := bind_ok _ _ _ h
  try dsimp only at h
  obtain ⟨eav, hea, h⟩ := bind_ok _ _ _ h
  try dsimp only at h
  obtain ⟨dsei, hds, h⟩ := bind_ok _ _ _ h
  try dsimp only at h
  obtain ⟨rtr, hrt, h⟩ := bind_ok _ _ _ h
  try dsimp only at h
  obtain ⟨ctr, hct, h⟩ := bind_ok _ _ _ h
  try dsimp only at h
  simp only [pure, Except.pure, Except.ok.injEq] at h
  have hk0nn : 0 ≤ k0v := hk0 k0v (gnum_ok g "k0" k0v hk0v)
  have hdsei : 0 ≤ dsei := by
    cases sm with
    | num q =>
      simp only [pure, Except.pure, Except.ok.injEq] at hds
      rw [← hds]
      refine mul_nonneg (mul_nonneg hk0nn (hexp _))
        (mul_nonneg (by nlinarith [mul_self_nonneg y.soc]) (by positivity))
    | str s =>
      dsimp only at hds
      by_cases hf : s = "full"
      · rw [if_pos hf] at hds
        obtain ⟨vset, hvs, hds⟩ := bind_ok _ _ _ hds
        try dsimp only at hds
        simp only [pure, Except.pure, Except.ok.injEq] at hds
        rw [← hds]
        refine mul_nonneg (mul_nonneg hk0nn (hexp _)) (mul_nonneg (hexp _) ?_)
        positivity
      · rw [if_neg hf] at hds
        simp only [pure, Except.pure, Except.ok.injEq] at hds
        rw [← hds]
        refine mul_nonneg (mul_nonneg hk0nn (hexp _))
          (mul_nonneg (by nlinarith [mul_self_nonneg y.soc]) (by positivity))
  rw [← h]
  exact hdsei

theorem plot_rk4_sei_mono (ops : RealOps) (pol : String) (g : Plot.Getter)
    (y : Plot.Y7) (t dt : ℚ) (y2 : Plot.Y7) (hdt : 0 ≤ dt)
    (hexp : ∀ x, 0 ≤ ops.exp x) (hk0 : ∀ q, g "k0" = .ok (.num q) → 0 ≤ q)
    (h : Plot.rk4 ops pol g y t dt = .ok y2) : y.sei ≤ y2.sei := by
  rw [Plot.rk4] at h
  obtain ⟨d1, h1, h⟩ := bind_ok _ _ _ h
  try dsimp only at h
  obtain ⟨d2, h2, h⟩ := bind_ok _ _ _ h
  try dsimp only at h
  obtain ⟨d3, h3, h⟩ := bind_ok _ _ _ h
  try dsimp only at h
  obtain ⟨d4, h4, h⟩ := bind_ok _ _ _ h
  try dsimp only at h
  simp only [pure, Except.pure, Except.ok.injEq] at h
  have n1 := plot_dsei_nn ops pol g y t d1 hexp hk0 h1
  have n2 := plot_dsei_nn ops pol g _ _ d2 hexp hk0 h2
  have n3 := plot_dsei_nn ops pol g _ _ d3 hexp hk0 h3
  have n4 := plot_dsei_nn ops pol g _ _ d4 hexp hk0 h4
  rw [← h]
  simp only [Y7_add_sei, Y7_smul_sei]
  nlinarith [mul_nonneg (show (0:ℚ) ≤ dt/6 from by linarith)
    (show (0:ℚ) ≤ d1.1.sei + 2 * d2.1.sei + 2 * d3.1.sei + d4.1.sei from by linarith)]

theorem chain_mono_last (l : List ℚ) (a b : ℚ)
    (h : List.Chain' (· ≤ ·) (l ++ [a])) (hab : a ≤ b) :
    List.Chain' (· ≤ ·) (l ++ [b]) := by
  rw [List.chain'_append] at h ⊢
  obtain ⟨h1, _, h3⟩ := h
  refine ⟨h1, List.chain'_singleton b, ?_⟩
  intro x hx z hz
  simp only [List.head?_cons, Option.mem_def, Option.some.injEq] at hz
  subst hz
  exact le_trans (h3 x hx a rfl) hab

theorem plot_loop_sei (ops : RealOps) (pol : String) (g : Plot.Getter) (dt : ℚ)
    (hdt : 0 ≤ dt) (hexp : ∀ x, 0 ≤ ops.exp x)
    (hk0 : ∀ q, g "k0" = .ok (.num q) → 0 ≤ q) :
    ∀ (n : ℕ) (t : ℚ) (y : Plot.Y7) (out : Plot.Traj) (b : Bool) (tr : Plot.Traj),
      List.Chain' (· ≤ ·) (out.sei ++ [y.sei]) →
      Plot.loop ops pol g dt n t y out = .ok (b, tr) →
      List.Chain' (· ≤ ·) tr.sei := by
  intro n
  induction n with
  | zero =>
    intro t y out b tr hch hres
    simp only [Plot.loop] at hres
    split at hres <;>
    · simp only [Except.ok.injEq, Prod.mk.injEq] at hres
      obtain ⟨_, htr⟩ := hres
      subst htr
      exact chain_drop_last _ _ hch
  | succ n ih =>
    intro t y out b tr hch hres
    simp only [Plot.loop] at hres
    split at hres
    · obtain ⟨d, hd, hres⟩ := bind_ok _ _ _ hres
      try dsimp only at hres
      obtain ⟨y2, hrk, hres⟩ := bind_ok _ _ _ hres
      try dsimp only at hres
      refine ih _ _ _ _ _ ?_ hres
      have hy2 : y.sei ≤ y2.sei :=
        plot_rk4_sei_mono ops pol g y t dt y2 hdt hexp hk0 hrk
      exact chain_concat _ _ _ (chain_mono_last _ _ _ hch hy2) (le_refl _)
    · simp only [Except.ok.injEq, Prod.mk.injEq] at hres
      obtain ⟨_, htr⟩ := hres
      subst htr
      exact chain_drop_last _ _ hch

/-- C5 (amended): the SEI samples are non-decreasing along the trajectory of
both engines, for every policy, provided the SEI rate constant `k0` is
nonnegative, the time step is nonnegative, and the exponential is
nonnegative (as the real `exp` is).  A negative `k0`, which the engines
accept without validation, makes SEI strictly decrease — see the
counterexample. -/
theorem claim5_sei_monotone :
    (∀ (ops : RealOps) (pol : String) (p : Loader.Params) (tr : Loader.Traj),
      (∀ x, 0 ≤ ops.exp x) → 0 ≤ (Loader.mkCfg p).k0 → 0 ≤ (Loader.mkCfg p).dt →
      Loader.run_simulation ops pol p = .ok tr →
      List.Chain' (· ≤ ·) tr.SEI) ∧
    (∀ (ops : RealOps) (fuel : ℕ) (pol : String) (g : Plot.Getter) (b : Bool)
      (tr : Plot.Traj),
      (∀ x, 0 ≤ ops.exp x) → (∀ q, g "k0" = .ok (.num q) → 0 ≤ q) →
      (∀ q, g "dt" = .ok (.num q) → 0 ≤ q) →
      Plot.runG ops fuel pol g = .ok (b, tr) →
      List.Chain' (· ≤ ·) tr.sei) := by
  constructor
  · intro ops pol p tr hexp hk0 hdt h
    rw [Loader.run_simulation, Loader.runWithCfg] at h
    by_cases h0 : (Loader.mkCfg p).dt = 0
    · rw [if_pos h0] at h; cases h
    · rw [if_neg h0] at h
      dsimp only at h
      cases h
      refine loader_loop_sei ops pol (Loader.cfgParams (Loader.mkCfg p))
        (Loader.mkCfg p).dt hdt hexp ?_ _ 0 _ Loader.Traj.empty ?_
      · rw [pget_cfg_k0]; exact hk0
      · simp [Loader.Traj.empty]
  · intro ops fuel pol g b tr hexp hk0 hdtq h
    rw [Plot.runG] at h
    obtain ⟨dtv, hdtv, h⟩ := bind_ok _ _ _ h
    try dsimp only at h
    obtain ⟨soc0v, hsoc0, h⟩ := bind_ok _ _ _ h
    try dsimp only at h
    obtain ⟨R0v, hR0, h⟩ := bind_ok _ _ _ h
    try dsimp only at h
    obtain ⟨T0v, hT0, h⟩ := bind_ok _ _ _ h
    try dsimp only at h
    refine plot_loop_sei ops pol g dtv
      (hdtq dtv (gnum_ok g "dt" dtv hdtv)) hexp hk0 fuel 0 _ Plot.Traj.empty b tr ?_ h
    simp [Plot.Traj.empty]

/-- C5 witness: a concrete loader run with the default (nonnegative) `k0`
has monotone SEI samples. -/
theorem claim5_witness :
    ∃ tr, Loader.run_simulation ops1 "Pulse" pSmall = .ok tr ∧
      List.Chain' (· ≤ ·) tr.SEI := by
  have h := loader_run_two ops1 "Pulse" pSmall
    (by norm_num [show (Loader.mkCfg pSmall).R0 = -1 from rfl])
    rfl
    (by norm_num [show (Loader.mkCfg pSmall).soc0 = 0 from rfl])
    (by norm_num [Loader.nsteps, itrunc,
        show (Loader.mkCfg pSmall).t_max = 1 from rfl,
        show (Loader.mkCfg pSmall).dt = 1/2 from rfl] <;> rfl)
  refine ⟨_, h, claim5_sei_monotone.1 ops1 "Pulse" pSmall _
    (fun x => by rw [show ops1.exp x = 1 from rfl]; norm_num)
    (by norm_num [show (Loader.mkCfg pSmall).k0 = 1/10000000 from rfl])
    (by norm_num [show (Loader.mkCfg pSmall).dt = 1/2 from rfl]) h⟩

/-- C5 counterexample: the engines accept a negative `k0`, and with
`k0 = -1` (and a nonnegative exponential) the recorded SEI strictly
decreases: the claim fails for that parameter set. -/
theorem claim5_counterexample :
    (∀ x, 0 ≤ ops1.exp x) ∧
    Loader.run_simulation ops1 "X" pNegK0 =
      .ok ⟨[0, 1/2], [5/2, 5/2], [0, 0], [-1, -1], [298, 298], [0, 0], [0, -1/2]⟩ ∧
    ¬ List.Chain' (· ≤ ·) [(0:ℚ), -1/2] := by
  refine ⟨fun x => by rw [show ops1.exp x = 1 from rfl]; norm_num, ?_, ?_⟩
  · rw [loader_run_two ops1 "X" pNegK0
      (by norm_num [show (Loader.mkCfg pNegK0).R0 = -1 from rfl])
      rfl
      (by norm_num [show (Loader.mkCfg pNegK0).soc0 = 0 from rfl])
      (by norm_num [Loader.nsteps, itrunc,
          show (Loader.mkCfg pNegK0).t_max = 1 from rfl,
          show (Loader.mkCfg pNegK0).dt = 1/2 from rfl] <;> rfl)]
    norm_num [show (Loader.mkCfg pNegK0).dt = 1/2 from rfl,
      show (Loader.mkCfg pNegK0).soc0 = 0 from rfl,
      show (Loader.mkCfg pNegK0).R0 = -1 from rfl,
      show (Loader.mkCfg pNegK0).T0 = 298 from rfl,
      show (Loader.mkCfg pNegK0).k0 = -1 from rfl,
      show (Loader.mkCfg pNegK0).Ea = 30000 from rfl,
      show ∀ x, ops1.exp x = 1 from fun _ => rfl,
      ocv_from_soc, scanTab, ocvTable]
  · norm_num [List.chain'_cons, List.chain'_singleton]

/-!
Shape of the returned trajectories.
-/

theorem chain_drop_last_lt (l : List ℚ) (a : ℚ)
    (h : List.Chain' (· < ·) (l ++ [a])) : List.Chain' (· < ·) l :=
  ((List.chain'_append.mp h).1)

theorem chain_concat_lt (l : List ℚ) (a b : ℚ) (h : List.Chain' (· < ·) (l ++ [a]))
    (hab : a < b) : List.Chain' (· < ·) ((l ++ [a]) ++ [b]) := by
  rw [List.chain'_append]
  refine ⟨h, List.chain'_singleton b, ?_⟩
  intro x hx z hz
  simp only [List.getLast?_concat, Option.mem_def, Option.some.injEq] at hx
  simp only [List.head?_cons, Option.mem_def, Option.some.injEq] at hz
  subst hx
  subst hz
  exact hab

theorem loader_loop_lens (ops : RealOps) (pol : String) (params : Loader.Params)
    (dt : ℚ) : ∀ (n : ℕ) (t : ℚ) (y : Loader.Y6) (out : Loader.Traj),
    out.V.length = out.t.length → out.I.length = out.t.length →
    out.R.length = out.t.length → out.T.length = out.t.length →
    out.SOC.length = out.t.length → out.SEI.length = out.t.length →
    (Loader.loop ops pol params dt n t y out).V.length
        = (Loader.loop ops pol params dt n t y out).t.length ∧
    (Loader.loop ops pol params dt n t y out).I.length
        = (Loader.loop ops pol params dt n t y out).t.length ∧
    (Loader.loop ops pol params dt n t y out).R.length
        = (Loader.loop ops pol params dt n t y out).t.length ∧
    (Loader.loop ops pol params dt n t y out).T.length
        = (Loader.loop ops pol params dt n t y out).t.length ∧
    (Loader.loop ops pol params dt n t y out).SOC.length
        = (Loader.loop ops pol params dt n t y out).t.length ∧
    (Loader.loop ops pol params dt n t y out).SEI.length
        = (Loader.loop ops pol params dt n t y out).t.length := by
  intro n
  induction n with
  | zero =>
    intro t y out h1 h2 h3 h4 h5 h6
    simp only [Loader.loop]
    exact ⟨h1, h2, h3, h4, h5, h6⟩
  | succ n ih =>
    intro t y out h1 h2 h3 h4 h5 h6
    simp only [Loader.loop]
    by_cases hc : y.soc ≥ 999/1000
    · rw [if_pos hc]
      exact ⟨h1, h2, h3, h4, h5, h6⟩
    · rw [if_neg hc]
      exact ih _ _ (out.push t y)
        (by simp [Loader.Traj.push, h1]) (by simp [Loader.Traj.push, h2])
        (by simp [Loader.Traj.push, h3]) (by simp [Loader.Traj.push, h4])
        (by simp [Loader.Traj.push, h5]) (by simp [Loader.Traj.push, h6])

theorem loader_loop_time (ops : RealOps) (pol : String) (params : Loader.Params)
    (dt : ℚ) (hdt : 0 < dt) : ∀ (n : ℕ) (t : ℚ) (y : Loader.Y6) (out : Loader.Traj),
    List.Chain' (· < ·) (out.t ++ [t]) →
    List.Chain' (· < ·) ((Loader.loop ops pol params dt n t y out).t) := by
  intro n
  induction n with
  | zero =>
    intro t y out h
    simp only [Loader.loop]
    exact chain_drop_last_lt _ _ h
  | succ n ih =>
    intro t y out h
    simp only [Loader.loop]
    by_cases hc : y.soc ≥ 999/1000
    · rw [if_pos hc]
      exact chain_drop_last_lt _ _ h
    · rw [if_neg hc]
      exact ih _ _ (out.push t y) (chain_concat_lt _ _ _ h (by linarith))

theorem loader_loop_head0 (ops : RealOps) (pol : String) (params : Loader.Params)
    (dt : ℚ) : ∀ (n : ℕ) (t : ℚ) (y : Loader.Y6),
    (Loader.loop ops pol params dt n t y Loader.Traj.empty).t = [] ∨
    (Loader.loop ops pol params dt n t y Loader.Traj.empty).t.head? = some t := by
  intro n
  cases n with
  | zero => exact fun t y => Or.inl rfl
  | succ n =>
    intro t y
    simp only [Loader.loop]
    by_cases hc : y.soc ≥ 999/1000
    · rw [if_pos hc]
      exact Or.inl rfl
    · rw [if_neg hc]
      refine Or.inr ?_
      have hne : ∀ x : ℚ, ([] : List ℚ) ++ [x] ≠ [] := by intro x h; simpa using h
      exact (loader_loop_head ops pol params dt n (t + dt) _
        (Loader.Traj.empty.push t y) (hne _) (hne _) (hne _) (hne _) (hne _)
        (hne _) (hne _)).1

theorem plot_loop_lens (ops : RealOps) (pol : String) (g : Plot.Getter) (dt : ℚ) :
    ∀ (n : ℕ) (t : ℚ) (y : Plot.Y7) (out : Plot.Traj) (b : Bool) (tr : Plot.Traj),
    out.voltage.length = out.time.length → out.current.length = out.time.length →
    out.temperature.length = out.time.length → out.soc.length = out.time.length →
    out.sei.length = out.time.length → out.transient.length = out.time.length →
    Plot.loop ops pol g dt n t y out = .ok (b, tr) →
    tr.voltage.length = tr.time.length ∧ tr.current.length = tr.time.length ∧
    tr.temperature.length = tr.time.length ∧ tr.soc.length = tr.time.length ∧
    tr.sei.length = tr.time.length ∧ tr.transient.length = tr.time.length := by
  intro n
  induction n with
  | zero =>
    intro t y out b tr h1 h2 h3 h4 h5 h6 hres
    simp only [Plot.loop] at hres
    split at hres <;>
    · simp only [Except.ok.injEq, Prod.mk.injEq] at hres
      obtain ⟨_, htr⟩ := hres
      subst htr
      exact ⟨h1, h2, h3, h4, h5, h6⟩
  | succ n ih =>
    intro t y out b tr h1 h2 h3 h4 h5 h6 hres
    simp only [Plot.loop] at hres
    split at hres
    · obtain ⟨d, hd, hres⟩ := bind_ok _ _ _ hres
      try dsimp only at hres
      obtain ⟨y2, hrk, hres⟩ := bind_ok _ _ _ hres
      try dsimp only at hres
      exact ih _ _ _ _ _
        (by simp [Plot.Traj.push, h1]) (by simp [Plot.Traj.push, h2])
        (by simp [Plot.Traj.push, h3]) (by simp [Plot.Traj.push, h4])
        (by simp [Plot.Traj.push, h5]) (by simp [Plot.Traj.push, h6]) hres
    · simp only [Except.ok.injEq, Prod.mk.injEq] at hres
      obtain ⟨_, htr⟩ := hres
      subst htr
      exact ⟨h1, h2, h3, h4, h5, h6⟩

/-- C6 (amended): neither engine attaches a status to its result — the
result is the bare trajectory dictionary.  The loader trajectory has seven
parallel equal-length lists `t, V, I, R, T, SOC, SEI`; the plot trajectory
has seven parallel equal-length lists `time, voltage, current, temperature,
soc, sei, transient` (a transient list but no resistance list).  The time
list starts at `0` (when nonempty) and increases by `dt` per sample, so it
is strictly increasing exactly when `dt > 0`; a negative `dt` (accepted
without validation) yields strictly decreasing times — see the
counterexample. -/
theorem claim6_result_shape :
    (∀ (ops : RealOps) (pol : String) (p : Loader.Params) (tr : Loader.Traj),
      Loader.run_simulation ops pol p = .ok tr →
      (tr.V.length = tr.t.length ∧ tr.I.length = tr.t.length ∧
       tr.R.length = tr.t.length ∧ tr.T.length = tr.t.length ∧
       tr.SOC.length = tr.t.length ∧ tr.SEI.length = tr.t.length) ∧
      (0 < (Loader.mkCfg p).dt → List.Chain' (· < ·) tr.t) ∧
      (tr.t = [] ∨ tr.t.head? = some 0)) ∧
    (∀ (ops : RealOps) (fuel : ℕ) (pol : String) (g : Plot.Getter) (b : Bool)
      (tr : Plot.Traj),
      Plot.runG ops fuel pol g = .ok (b, tr) →
      tr.voltage.length = tr.time.length ∧ tr.current.length = tr.time.length ∧
      tr.temperature.length = tr.time.length ∧ tr.soc.length = tr.time.length ∧
      tr.sei.length = tr.time.length ∧ tr.transient.length = tr.time.length) := by
  constructor
  · intro ops pol p tr h
    rw [Loader.run_simulation, Loader.runWithCfg] at h
    by_cases h0 : (Loader.mkCfg p).dt = 0
    · rw [if_pos h0] at h; cases h
    · rw [if_neg h0] at h
      dsimp only at h
      cases h
      refine ⟨loader_loop_lens ops pol _ _ _ 0 _ Loader.Traj.empty
        rfl rfl rfl rfl rfl rfl, ?_, ?_⟩
      · intro hdt
        refine loader_loop_time ops pol _ _ hdt _ 0 _ Loader.Traj.empty ?_
        simp [Loader.Traj.empty]
      · exact loader_loop_head0 ops pol _ _ _ 0 _
  · intro ops fuel pol g b tr h
    rw [Plot.runG] at h
    obtain ⟨dtv, hdtv, h⟩ := bind_ok _ _ _ h
    try dsimp only at h
    obtain ⟨soc0v, hsoc0, h⟩ := bind_ok _ _ _ h
    try dsimp only at h
    obtain ⟨R0v, hR0, h⟩ := bind_ok _ _ _ h
    try dsimp only at h
    obtain ⟨T0v, hT0, h⟩ := bind_ok _ _ _ h
    try dsimp only at h
    exact plot_loop_lens ops pol g dtv fuel 0 _ Plot.Traj.empty b tr
      rfl rfl rfl rfl rfl rfl h

/-- C6 witness: a concrete loader run with `dt = 1/2 > 0`: equal lengths
and strictly increasing times from `0`. -/
theorem claim6_witness :
    ∃ tr, Loader.run_simulation ops1 "CC" pSmall = .ok tr ∧
      tr.SOC.length = tr.t.length ∧ List.Chain' (· < ·) tr.t ∧
      (tr.t = [] ∨ tr.t.head? = some 0) := by
  have h := loader_run_two ops1 "CC" pSmall
    (by norm_num [show (Loader.mkCfg pSmall).R0 = -1 from rfl])
    rfl
    (by norm_num [show (Loader.mkCfg pSmall).soc0 = 0 from rfl])
    (by norm_num [Loader.nsteps, itrunc,
        show (Loader.mkCfg pSmall).t_max = 1 from rfl,
        show (Loader.mkCfg pSmall).dt = 1/2 from rfl] <;> rfl)
  have hc := claim6_result_shape.1 ops1 "CC" pSmall _ h
  exact ⟨_, h, hc.1.2.2.2.2.1,
    hc.2.1 (by norm_num [show (Loader.mkCfg pSmall).dt = 1/2 from rfl]), hc.2.2⟩

/-- C6 counterexample: the result carries no status, and with a negative
time step (accepted without validation) the recorded times strictly
decrease, refuting the claimed strictly-increasing time sequence. -/
theorem claim6_counterexample :
    Loader.run_simulation ops1 "X" pNegDt =
      .ok ⟨[0, -1/2], [5/2, 5/2], [0, 0], [-1, -1], [298, 298], [0, 0],
        [0, -1/20000000]⟩ ∧
    ¬ List.Chain' (· < ·) [(0:ℚ), -1/2] := by
  constructor
  · rw [loader_run_two ops1 "X" pNegDt
      (by norm_num [show (Loader.mkCfg pNegDt).R0 = -1 from rfl])
      rfl
      (by norm_num [show (Loader.mkCfg pNegDt).soc0 = 0 from rfl])
      (by norm_num [Loader.nsteps, itrunc,
          show (Loader.mkCfg pNegDt).t_max = -1 from rfl,
          show (Loader.mkCfg pNegDt).dt = -1/2 from rfl] <;> rfl)]
    norm_num [show (Loader.mkCfg pNegDt).dt = -1/2 from rfl,
      show (Loader.mkCfg pNegDt).soc0 = 0 from rfl,
      show (Loader.mkCfg pNegDt).R0 = -1 from rfl,
      show (Loader.mkCfg pNegDt).T0 = 298 from rfl,
      show (Loader.mkCfg pNegDt).k0 = 1/10000000 from rfl,
      show (Loader.mkCfg pNegDt).Ea = 30000 from rfl,
      show ∀ x, ops1.exp x = 1 from fun _ => rfl,
      ocv_from_soc, scanTab, ocvTable]
  · norm_num [List.chain'_cons, List.chain'_singleton]

/-!
C8: both integrators against the spec's RK4 scheme.
-/

theorem bind_proj {α β γ : Type} (e : Except String α) (p : α → β)
    (f : β → Except String γ) :
    ((e >>= fun a => pure (p a)) >>= f) = e >>= fun a => f (p a) := by
  cases e <;> rfl

theorem plot_rk4_spec (ops : RealOps) (pol : String) (g : Plot.Getter)
    (y : Plot.Y7) (t dt : ℚ) :
    Plot.rk4 ops pol g y t dt = specRK4E (Plot.derivField ops pol g) y t dt := by
  have hhalf : (1/2 : ℚ) * dt = dt / 2 := by ring
  simp only [Plot.rk4, specRK4E, Plot.derivField, bind_proj, hhalf]

theorem plot_deriv_zeroVIR (ops : RealOps) (pol : String) (g : Plot.Getter)
    (y : Plot.Y7) (t : ℚ) (d : Plot.Y7 × ℚ × ℚ)
    (h : Plot.derivatives ops pol g y t = .ok d) :
    d.1.V = 0 ∧ d.1.I = 0 ∧ d.1.R = 0 := by
  rw [Plot.derivatives] at h
  obtain ⟨vsrc, hpv, h⟩ := bind_ok _ _ _ h
  try dsimp only at h
  obtain ⟨cnom, hcn, h⟩ := bind_ok _ _ _ h
  try dsimp only at h
  obtain ⟨m, hm, h⟩ := bind_ok _ _ _ h
  try dsimp only at h
  obtain ⟨c, hcv, h⟩ := bind_ok _ _ _ h
  try dsimp only at h
  obtain ⟨kc, hkc, h⟩ := bind_ok _ _ _ h
  try dsimp only at h
  obtain ⟨tam, hta, h⟩ := bind_ok _ _ _ h
  try dsimp only at h
  obtain ⟨sm, hsm, h⟩ := bind_ok _ _ _ h
  try dsimp only at h
  obtain ⟨k0v, hk0v, h⟩ := bind_ok _ _ _ h
  try dsimp only at h
  obtain ⟨eav, hea, h⟩ := bind_ok _ _ _ h
  try dsimp only at h
  obtain ⟨dsei, hds, h⟩ := bind_ok _ _ _ h
  try dsimp only at h
  obtain ⟨rtr, hrt, h⟩ := bind_ok _ _ _ h
  try dsimp only at h
  obtain ⟨ctr, hct, h⟩ := bind_ok _ _ _ h
  try dsimp only at h
  simp only [pure, Except.pure, Except.ok.injEq] at h
  rw [← h]
  exact ⟨rfl, rfl, rfl⟩

theorem plot_rk4_VIR (ops : RealOps) (pol : String) (g : Plot.Getter)
    (y : Plot.Y7) (t dt : ℚ) (y2 : Plot.Y7)
    (h : Plot.rk4 ops pol g y t dt = .ok y2) :
    y2.V = y.V ∧ y2.I = y.I ∧ y2.R = y.R := by
  rw [Plot.rk4] at h
  obtain ⟨d1, h1, h⟩ := bind_ok _ _ _ h
  try dsimp only at h
  obtain ⟨d2, h2, h⟩ := bind_ok _ _ _ h
  try dsimp only at h
  obtain ⟨d3, h3, h⟩ := bind_ok _ _ _ h
  try dsimp only at h
  obtain ⟨d4, h4, h⟩ := bind_ok _ _ _ h
  try dsimp only at h
  simp only [pure, Except.pure, Except.ok.injEq] at h
  obtain ⟨z1V, z1I, z1R⟩ := plot_deriv_zeroVIR ops pol g _ _ _ h1
  obtain ⟨z2V, z2I, z2R⟩ := plot_deriv_zeroVIR ops pol g _ _ _ h2
  obtain ⟨z3V, z3I, z3R⟩ := plot_deriv_zeroVIR ops pol g _ _ _ h3
  obtain ⟨z4V, z4I, z4R⟩ := plot_deriv_zeroVIR ops pol g _ _ _ h4
  rw [← h]
  refine ⟨?_, ?_, ?_⟩ <;>
  · simp only [Y7_add_V, Y7_add_I, Y7_add_R, Y7_smul_V, Y7_smul_I, Y7_smul_R,
      z1V, z1I, z1R, z2V, z2I, z2R, z3V, z3I, z3R, z4V, z4I, z4R]
    ring

/-- C8: both integrators are exactly the fixed-step explicit RK4 scheme the
spec states, applied to the derivative field of their respective
`derivatives` functions, and both carry the algebraic components `V`, `I`,
`R` through unchanged (their derivatives are identically zero).  The
loader's `rk4_step` equals `specRK4` on the derivative field literally; the
plot engine's `rk4` equals `specRK4E` (the same scheme lifted to the
KeyError-propagating monad) on its derivative field, and whenever it
succeeds the result preserves `V`, `I`, `R`. -/
theorem claim8_rk4_is_spec_rk4 :
    (∀ (ops : RealOps) (pol : String) (params : Loader.Params)
        (y : Loader.Y6) (t dt : ℚ),
      Loader.rk4_step ops pol params y t dt =
        specRK4 (fun z τ => (Loader.derivatives ops pol params z τ).1) y t dt ∧
      (Loader.rk4_step ops pol params y t dt).V = y.V ∧
      (Loader.rk4_step ops pol params y t dt).I = y.I ∧
      (Loader.rk4_step ops pol params y t dt).R = y.R) ∧
    (∀ (ops : RealOps) (pol : String) (g : Plot.Getter)
        (y : Plot.Y7) (t dt : ℚ),
      Plot.rk4 ops pol g y t dt = specRK4E (Plot.derivField ops pol g) y t dt ∧
      ∀ y2 : Plot.Y7, Plot.rk4 ops pol g y t dt = .ok y2 →
        y2.V = y.V ∧ y2.I = y.I ∧ y2.R = y.R) := by
  constructor
  · intro ops pol params y t dt
    exact loader_rk4_spec ops pol params y t dt
  · intro ops pol g y t dt
    exact ⟨plot_rk4_spec ops pol g y t dt,
      fun y2 h => plot_rk4_VIR ops pol g y t dt y2 h⟩

/-- C8 witness: a concrete successful plot-engine RK4 step (CC policy, full
parameter dictionary) whose result preserves `V`, `I`, `R`, obtained by
applying the claim theorem with its success hypothesis discharged. -/
theorem claim8_witness :
    ∃ y2 : Plot.Y7,
      Plot.rk4 ops1 "CC" (Plot.pv pCCplot)
        ⟨5/2, 0, 3/100, 298, 0, 0, 0⟩ 0 (1/5) = .ok y2 ∧
      y2.V = 5/2 ∧ y2.I = 0 ∧ y2.R = 3/100 := by
  obtain ⟨y2, h⟩ := cc_rk4_ok ops1 ⟨5/2, 0, 3/100, 298, 0, 0, 0⟩ 0 (1/5)
  have hp := (claim8_rk4_is_spec_rk4.2 ops1 "CC" (Plot.pv pCCplot)
    ⟨5/2, 0, 3/100, 298, 0, 0, 0⟩ 0 (1/5)).2 y2 h
  exact ⟨y2, h, hp.1, hp.2.1, hp.2.2⟩
